import Mathlib

/-!
# PAC Credentials Information: header parsing, key-type guard, decryption hand-off

A shallow embedding of `pac/credentials_info.go` (package `pac` of the vendored gokrb5):
`CredentialsInfo.Unmarshal`, `CredentialsInfo.DecryptEncPart` and `CredentialData.Unmarshal`.

Go values are embedded as follows.

* a `byte` is a `Fin 256`, a `[]byte` is a `List Byte`;
* `uint32` is a `Nat` (always below `2 ^ 32` here), `int32` and `int` are `Int`;
* an `error` is an `Option GoError`, `none` being `nil`;
* a pointer receiver is passed in and returned (explicit state passing);
* the two external routines, `crypto.DecryptMessage` and the NDR decoder, are parameters
  (`Env`), and every invocation of either is appended to a call log;
* a runtime panic is the result `none` of an `Option`; `Env` takes the external routines as
  functions that always return, `PanicEnv` lets them panic as well.

`Unmarshal` reads its input through `mstypes.NewReader(bytes.NewReader(b))`. The three readers
involved, `mstypes.Reader` (package `gopkg.in/jcmturner/rpc.v1/mstypes`), `bufio.Reader` and
`bytes.Reader` (Go standard library), are embedded from their Go code, which the doc comments
of the definitions quote: what the payload read returns depends on the 4096-byte buffer of
`bufio.Reader`, so the buffer is part of the model.
-/

namespace pac

/-- One octet of a Go byte slice. -/
abbrev Byte := Fin 256

/-- Go error values that occur in this code: the sentinel `io.EOF`, and the string errors
built by `errors.New` and `fmt.Errorf` (no `%w` verb is used anywhere, so such an error is
nothing more than its message). Errors of the external routines are values of this type too. -/
inductive GoError where
  | EOF : GoError
  | errorString (s : String) : GoError
  deriving DecidableEq, Repr

/-- The method `Error()` of an error value: its message. -/
def GoError.Error : GoError → String
  | .EOF => "EOF"
  | .errorString s => s

/-- Formatting of an `error` operand under the verb `%v`: the message, or `<nil>` for the
nil interface value. -/
def fmtV : Option GoError → String
  | none => "<nil>"
  | some e => e.Error

/-- Formatting of a `uint32` operand under the verb `%d`. -/
def fmtDu (n : Nat) : String := toString n

/-- Formatting of an `int32` operand under the verb `%d`. -/
def fmtDi (n : Int) : String := toString n

/-- The conversion `int32(x)` of a `uint32` value: the same 32 bits read as two's complement. -/
def int32 (x : Nat) : Int :=
  if x % 2 ^ 32 < 2 ^ 31 then ((x % 2 ^ 32 : Nat) : Int) else ((x % 2 ^ 32 : Nat) : Int) - 2 ^ 32

/-- The function `binary.LittleEndian.Uint32`, on the four bytes it reads:
`uint32(b[0]) | uint32(b[1])<<8 | uint32(b[2])<<16 | uint32(b[3])<<24`. -/
def LittleEndianUint32 (b0 b1 b2 b3 : Byte) : Nat :=
  b0.val ||| (b1.val <<< 8) ||| (b2.val <<< 16) ||| (b3.val <<< 24)

/-- The function `binary.LittleEndian.Uint32` on a slice (of length 4 at its only call site;
a shorter slice would be an index panic, `none`). -/
def Uint32OfBytes : List Byte → Option Nat
  | b0 :: b1 :: b2 :: b3 :: _ => some (LittleEndianUint32 b0 b1 b2 b3)
  | _ => none

/-! ## The readers underneath `mstypes.Reader` -/

/-- State of a `bytes.Reader`: the slice `s` and the read index `i`. -/
structure BytesReader where
  s : List Byte
  i : Nat
  deriving DecidableEq, Repr

/-- The function `bytes.NewReader`. -/
def BytesReader.NewReader (b : List Byte) : BytesReader := ⟨b, 0⟩

/-- The method `Read` of `bytes.Reader` for a destination of length `n`:
`if r.i >= int64(len(r.s)) { return 0, io.EOF }; n = copy(b, r.s[r.i:]); r.i += int64(n)`.
At the end of the slice it returns `0, io.EOF`; otherwise it copies `min n (len(s) - i)`
bytes and advances. The copied bytes are returned (their number is the count of the Go
code). -/
def BytesReader.Read (r : BytesReader) (n : Nat) : BytesReader × List Byte × Option GoError :=
  if r.i ≥ r.s.length then (r, [], some GoError.EOF)
  else
    let out := (r.s.drop r.i).take n
    ({ r with i := r.i + out.length }, out, none)

/-- The constant `defaultBufSize` of package `bufio`. -/
def defaultBufSize : Nat := 4096

/-- State of a `bufio.Reader` over a `bytes.Reader`: `buf` stands for the unread part
`b.buf[b.r:b.w]` of the internal buffer (whose capacity is `defaultBufSize`), `err` for the
pending error `b.err`. -/
structure BufioReader where
  rd : BytesReader
  buf : List Byte
  err : Option GoError
  deriving DecidableEq, Repr

/-- The function `bufio.NewReader`: an empty buffer of `defaultBufSize` bytes. -/
def BufioReader.NewReader (rd : BytesReader) : BufioReader := ⟨rd, [], none⟩

/-- The method `Read` of `bufio.Reader` for a destination `p` of length `n`. It reads from the
underlying reader at most once, and otherwise hands out only what is buffered:

* `len(p) == 0`: `0, nil` if something is buffered, else `0, b.readErr()`;
* empty buffer with a pending error: `0, b.readErr()`;
* empty buffer and `len(p) >= len(b.buf)`: one read straight into `p`;
* empty buffer otherwise: one read into the buffer, `0, b.readErr()` if it yields nothing;
* then `n = copy(p, b.buf[b.r:b.w])`, returned with a nil error.

`readErr` returns `b.err` and clears it. -/
def BufioReader.Read (b : BufioReader) (n : Nat) : BufioReader × List Byte × Option GoError :=
  if n = 0 then
    if b.buf.length > 0 then (b, [], none)
    else ({ b with err := none }, [], b.err)
  else if b.buf.length = 0 then
    if b.err.isSome then ({ b with err := none }, [], b.err)
    else if n ≥ defaultBufSize then
      let res := b.rd.Read n
      ({ rd := res.1, buf := [], err := none }, res.2.1, res.2.2)
    else
      let res := b.rd.Read defaultBufSize
      if res.2.1.length = 0 then ({ rd := res.1, buf := [], err := none }, [], res.2.2)
      else ({ rd := res.1, buf := res.2.1.drop n, err := res.2.2 }, res.2.1.take n, none)
  else
    ({ b with buf := b.buf.drop n }, b.buf.take n, none)

/-- State of an `mstypes.Reader`: the wrapped `bufio.Reader`. -/
structure Reader where
  r : BufioReader
  deriving DecidableEq, Repr

/-- The function `mstypes.NewReader`: wraps its source in `bufio.NewReader`. -/
def Reader.NewReader (rd : BytesReader) : Reader := ⟨BufioReader.NewReader rd⟩

/-- The method `ReadBytes` of `mstypes.Reader`:
`b := make([]byte, n, n); m, err := r.r.Read(b);`
`if err != nil || m != n { return b, fmt.Errorf("error reading bytes from stream: %v", err) }`.
A negative `n` makes `make` panic (`none`). On a short read the slice returned still has
length `n`: the bytes read followed by zeros. -/
def Reader.ReadBytes (r : Reader) (n : Int) : Option (Reader × List Byte × Option GoError) :=
  if n < 0 then none
  else
    let res := r.r.Read n.toNat
    let b := res.2.1 ++ List.replicate (n.toNat - res.2.1.length) (0 : Byte)
    if res.2.2.isSome ∨ res.2.1.length ≠ n.toNat then
      some (⟨res.1⟩, b,
        some (GoError.errorString ("error reading bytes from stream: " ++ fmtV res.2.2)))
    else some (⟨res.1⟩, b, none)

/-- The constant `SizeUint32` of package `mstypes`. -/
def SizeUint32 : Int := 4

/-- The method `Uint32` of `mstypes.Reader`:
`b, err := r.ReadBytes(SizeUint32); if err != nil { return uint32(0), err };`
`return binary.LittleEndian.Uint32(b), nil`. -/
def Reader.Uint32 (r : Reader) : Option (Reader × Nat × Option GoError) :=
  match r.ReadBytes SizeUint32 with
  | none => none
  | some (r1, b, err) =>
    if err.isSome then some (r1, 0, err)
    else
      match Uint32OfBytes b with
      | none => none
      | some v => some (r1, v, none)

/-! ## The data model -/

/-- The type `types.EncryptionKey`: `KeyType int32` and `KeyValue []byte`. -/
structure EncryptionKey where
  KeyType : Int
  KeyValue : List Byte
  deriving DecidableEq, Repr

/-- The type `CredentialData`; the record type `SECPKGSupplementalCred` is the parameter
`Cred`. -/
structure CredentialData (Cred : Type) where
  CredentialCount : Nat
  Credentials : List Cred
  deriving DecidableEq, Repr

/-- The type `CredentialsInfo`. -/
structure CredentialsInfo (Cred : Type) where
  Version : Nat
  EType : Nat
  PACCredentialDataEncrypted : List Byte
  PACCredentialData : CredentialData Cred
  deriving DecidableEq, Repr

/-- The constant `keyusage.KERB_NON_KERB_SALT` (16, as the comment on the field
`PACCredentialDataEncrypted` records). -/
def KERB_NON_KERB_SALT : Nat := 16

/-- The two external routines.

* `DecryptMessage ciphertext key usage` is `crypto.DecryptMessage`, returning `([]byte, error)`;
* `Decode b c` is `ndr.NewDecoder(bytes.NewReader(b)).Decode(c)`: it returns the target
  structure as the decoder leaves it, and the error. -/
structure Env (Cred : Type) where
  DecryptMessage : List Byte → EncryptionKey → Nat → List Byte × Option GoError
  Decode : List Byte → CredentialData Cred → CredentialData Cred × Option GoError

/-- An entry of the call log: one invocation of an external routine with its arguments. -/
inductive Call where
  | DecryptMessage (ciphertext : List Byte) (key : EncryptionKey) (usage : Nat) : Call
  | Decode (b : List Byte) : Call
  deriving DecidableEq, Repr

/-- What a method call leaves behind: the receiver, the error returned, and the external
routines invoked, in order. -/
structure Outcome (Cred : Type) where
  c : CredentialsInfo Cred
  err : Option GoError
  calls : List Call
  deriving DecidableEq, Repr

/-! ## The methods of `credentials_info.go` -/

/-- The method `CredentialData.Unmarshal`: runs the NDR decoder on `b` with the receiver as
target, and wraps a failure as `error unmarshaling KerbValidationInfo: %v`. -/
def CredentialData.Unmarshal {Cred : Type} (env : Env Cred) (c : CredentialData Cred)
    (b : List Byte) : CredentialData Cred × Option GoError :=
  let res := env.Decode b c
  match res.2 with
  | some e =>
    (res.1, some (GoError.errorString ("error unmarshaling KerbValidationInfo: " ++ fmtV (some e))))
  | none => (res.1, none)

/-- The method `CredentialsInfo.DecryptEncPart`: the key-type guard
`k.KeyType != int32(c.EType)`, then `crypto.DecryptMessage` on the encrypted field with key
usage `KERB_NON_KERB_SALT`, then `c.PACCredentialData.Unmarshal(pt)`. -/
def CredentialsInfo.DecryptEncPart {Cred : Type} (env : Env Cred) (c : CredentialsInfo Cred)
    (k : EncryptionKey) : Outcome Cred :=
  if k.KeyType ≠ int32 c.EType then
    { c := c
      err := some (GoError.errorString
        ("key provided is not the correct type. Type needed: " ++ fmtDu c.EType ++
          ", type provided: " ++ fmtDi k.KeyType))
      calls := [] }
  else
    let dm := env.DecryptMessage c.PACCredentialDataEncrypted k KERB_NON_KERB_SALT
    let log := [Call.DecryptMessage c.PACCredentialDataEncrypted k KERB_NON_KERB_SALT]
    match dm.2 with
    | some e => { c := c, err := some e, calls := log }
    | none =>
      let un := CredentialData.Unmarshal env c.PACCredentialData dm.1
      { c := { c with PACCredentialData := un.1 }
        err := un.2
        calls := log ++ [Call.Decode dm.1] }

/-- The method `CredentialsInfo.Unmarshal`. The two header fields are read with `r.Uint32()`,
each assigned to the receiver before its error is looked at; a nonzero version is refused;
the payload is read with `r.ReadBytes(len(b) - 8)`, whose error is overwritten by the result
of `DecryptEncPart`; an error of `DecryptEncPart` is wrapped as
`error decrypting PAC Credentials Data: %v`. -/
def CredentialsInfo.Unmarshal {Cred : Type} (env : Env Cred) (c : CredentialsInfo Cred)
    (b : List Byte) (k : EncryptionKey) : Option (Outcome Cred) :=
  let r := Reader.NewReader (BytesReader.NewReader b)
  match r.Uint32 with
  | none => none
  | some (r1, version, err1) =>
    let c1 := { c with Version := version }
    if err1.isSome then some { c := c1, err := err1, calls := [] }
    else if c1.Version ≠ 0 then
      some { c := c1
             err := some (GoError.errorString "credentials info version is not zero")
             calls := [] }
    else
      match r1.Uint32 with
      | none => none
      | some (r2, etype, err2) =>
        let c2 := { c1 with EType := etype }
        if err2.isSome then some { c := c2, err := err2, calls := [] }
        else
          match r2.ReadBytes ((b.length : Int) - 8) with
          | none => none
          | some (_, payload, _) =>
            let c3 := { c2 with PACCredentialDataEncrypted := payload }
            let out := CredentialsInfo.DecryptEncPart env c3 k
            match out.err with
            | some e =>
              some { c := out.c
                     err := some (GoError.errorString
                       ("error decrypting PAC Credentials Data: " ++ fmtV (some e)))
                     calls := out.calls }
            | none => some { c := out.c, err := none, calls := out.calls }

/-! ## The methods when an external routine may panic

`Env` takes the two external routines as functions that always return. The real routines can
panic on some arguments, and `Unmarshal` has no `recover`: a panic inside either of them
leaves `Unmarshal` as a panic. The definitions below are the same three methods with that
taken into account; on routines that never panic they agree with the definitions above
(`UnmarshalP_toPanicEnv`). -/

/-- The two external routines, each returning `none` when it panics and otherwise what the
corresponding field of `Env` returns. -/
structure PanicEnv (Cred : Type) where
  DecryptMessage : List Byte → EncryptionKey → Nat → Option (List Byte × Option GoError)
  Decode : List Byte → CredentialData Cred → Option (CredentialData Cred × Option GoError)

/-- External routines that never panic, as a `PanicEnv`. -/
def Env.toPanicEnv {Cred : Type} (env : Env Cred) : PanicEnv Cred :=
  { DecryptMessage := fun ct k u => some (env.DecryptMessage ct k u)
    Decode := fun b c => some (env.Decode b c) }

/-- The method `CredentialData.Unmarshal` over a `PanicEnv`: a panic of the decoder is a panic
of the method. -/
def CredentialData.UnmarshalP {Cred : Type} (penv : PanicEnv Cred) (c : CredentialData Cred)
    (b : List Byte) : Option (CredentialData Cred × Option GoError) :=
  match penv.Decode b c with
  | none => none
  | some res =>
    match res.2 with
    | some e =>
      some (res.1,
        some (GoError.errorString ("error unmarshaling KerbValidationInfo: " ++ fmtV (some e))))
    | none => some (res.1, none)

/-- The method `CredentialsInfo.DecryptEncPart` over a `PanicEnv`: the key-type guard, then
`crypto.DecryptMessage`, then `c.PACCredentialData.Unmarshal(pt)`; a panic of either routine
is a panic of the method. -/
def CredentialsInfo.DecryptEncPartP {Cred : Type} (penv : PanicEnv Cred)
    (c : CredentialsInfo Cred) (k : EncryptionKey) : Option (Outcome Cred) :=
  if k.KeyType ≠ int32 c.EType then
    some { c := c
           err := some (GoError.errorString
             ("key provided is not the correct type. Type needed: " ++ fmtDu c.EType ++
               ", type provided: " ++ fmtDi k.KeyType))
           calls := [] }
  else
    match penv.DecryptMessage c.PACCredentialDataEncrypted k KERB_NON_KERB_SALT with
    | none => none
    | some dm =>
      let log := [Call.DecryptMessage c.PACCredentialDataEncrypted k KERB_NON_KERB_SALT]
      match dm.2 with
      | some e => some { c := c, err := some e, calls := log }
      | none =>
        match CredentialData.UnmarshalP penv c.PACCredentialData dm.1 with
        | none => none
        | some un =>
          some { c := { c with PACCredentialData := un.1 }
                 err := un.2
                 calls := log ++ [Call.Decode dm.1] }

/-- The method `CredentialsInfo.Unmarshal` over a `PanicEnv`: the same statements as
`CredentialsInfo.Unmarshal`, with a panic of `DecryptEncPart` passed on. -/
def CredentialsInfo.UnmarshalP {Cred : Type} (penv : PanicEnv Cred) (c : CredentialsInfo Cred)
    (b : List Byte) (k : EncryptionKey) : Option (Outcome Cred) :=
  let r := Reader.NewReader (BytesReader.NewReader b)
  match r.Uint32 with
  | none => none
  | some (r1, version, err1) =>
    let c1 := { c with Version := version }
    if err1.isSome then some { c := c1, err := err1, calls := [] }
    else if c1.Version ≠ 0 then
      some { c := c1
             err := some (GoError.errorString "credentials info version is not zero")
             calls := [] }
    else
      match r1.Uint32 with
      | none => none
      | some (r2, etype, err2) =>
        let c2 := { c1 with EType := etype }
        if err2.isSome then some { c := c2, err := err2, calls := [] }
        else
          match r2.ReadBytes ((b.length : Int) - 8) with
          | none => none
          | some (_, payload, _) =>
            let c3 := { c2 with PACCredentialDataEncrypted := payload }
            match CredentialsInfo.DecryptEncPartP penv c3 k with
            | none => none
            | some out =>
              match out.err with
              | some e =>
                some { c := out.c
                       err := some (GoError.errorString
                         ("error decrypting PAC Credentials Data: " ++ fmtV (some e)))
                       calls := out.calls }
              | none => some { c := out.c, err := none, calls := out.calls }

/-- A decryption routine that panics on a ciphertext shorter than 12 bytes (it slices a
12-byte checksum off the end of the ciphertext without checking its length) and otherwise
returns the ciphertext; the decoder never fails. -/
def shortPanicEnv : PanicEnv Unit :=
  { DecryptMessage := fun ct _ _ => if ct.length < 12 then none else some (ct, none)
    Decode := fun b _ => some (⟨b.length, []⟩, none) }

/-! ## Auxiliary definitions used to state the results -/

/-- The byte `b[i]` of an input (zero beyond its end). -/
def byteAt (b : List Byte) (i : Nat) : Byte := b.getD i 0

/-- Bytes `[0,4)` of an input, read as an unsigned 32-bit little-endian integer. -/
def versionField (b : List Byte) : Nat :=
  LittleEndianUint32 (byteAt b 0) (byteAt b 1) (byteAt b 2) (byteAt b 3)

/-- Bytes `[4,8)` of an input, read as an unsigned 32-bit little-endian integer. -/
def etypeField (b : List Byte) : Nat :=
  LittleEndianUint32 (byteAt b 4) (byteAt b 5) (byteAt b 6) (byteAt b 7)

/-- What `r.ReadBytes(len(b) - 8)` returns for an input whose bytes after the header are
`payload`: the part of it that the first fill of the 4096-byte buffer left buffered (4088
bytes at most), followed by zeros up to the length asked for. -/
def payloadRead (payload : List Byte) : List Byte :=
  payload.take 4088 ++ List.replicate (payload.length - 4088) (0 : Byte)

/-- The last step of `CredentialsInfo.Unmarshal`: an error of `DecryptEncPart` is wrapped as
`error decrypting PAC Credentials Data: %v`. -/
def wrapDecrypt {Cred : Type} (out : Outcome Cred) : Outcome Cred :=
  match out.err with
  | some e =>
    { c := out.c
      err := some (GoError.errorString ("error decrypting PAC Credentials Data: " ++ e.Error))
      calls := out.calls }
  | none => { c := out.c, err := none, calls := out.calls }

/-- The error of the key-type guard of `DecryptEncPart` for header type `e` and key type `t`. -/
def keyTypeError (e : Nat) (t : Int) : GoError :=
  GoError.errorString
    ("key provided is not the correct type. Type needed: " ++ fmtDu e ++
      ", type provided: " ++ fmtDi t)

/-- The error of the version check of `CredentialsInfo.Unmarshal`. -/
def versionError : GoError := GoError.errorString "credentials info version is not zero"

/-- A test double for the external routines: decryption returns its ciphertext unchanged,
decoding yields the count of bytes it was given and no records. Neither ever fails. -/
def echoEnv : Env Unit :=
  { DecryptMessage := fun ct _ _ => (ct, none)
    Decode := fun b _ => (⟨b.length, []⟩, none) }

/-- A receiver state used in examples. -/
def sampleInfo : CredentialsInfo Unit :=
  { Version := 7, EType := 7, PACCredentialDataEncrypted := [9], PACCredentialData := ⟨3, [()]⟩ }

/-- Whether a log entry is an invocation of the decryption routine. -/
def Call.isDecryptMessage : Call → Bool
  | .DecryptMessage _ _ _ => true
  | .Decode _ => false

/-- Whether a log entry is an invocation of the inner decoder. -/
def Call.isDecode : Call → Bool
  | .DecryptMessage _ _ _ => false
  | .Decode _ => true

/-- A test double whose decryption routine always fails, with an error whose message reads
like that of a failed inner decode. -/
def failingDecryptEnv : Env Unit :=
  { DecryptMessage := fun _ _ _ =>
      ([], some (GoError.errorString "error unmarshaling KerbValidationInfo: unexpected EOF"))
    Decode := fun _ c => (c, none) }

/-- A test double whose decryption routine returns its ciphertext and whose inner decoder
always fails with `unexpected EOF`. -/
def failingDecodeEnv : Env Unit :=
  { DecryptMessage := fun ct _ _ => (ct, none)
    Decode := fun _ c => (c, some (GoError.errorString "unexpected EOF")) }

/-- The function `binary.LittleEndian.PutUint32`, as the four bytes it writes for `v`. -/
def PutUint32 (v : Nat) : List Byte :=
  [⟨v % 256, Nat.mod_lt _ (by decide)⟩, ⟨v / 2 ^ 8 % 256, Nat.mod_lt _ (by decide)⟩,
   ⟨v / 2 ^ 16 % 256, Nat.mod_lt _ (by decide)⟩, ⟨v / 2 ^ 24 % 256, Nat.mod_lt _ (by decide)⟩]

/-- The conversion `uint32(t)` of an `int32` value. -/
def uint32 (t : Int) : Nat := (t % 2 ^ 32).toNat

/-- The input of the round trip: a header with version 0 and the key type `t` as encryption
type, followed by the ciphertext. -/
def roundTripInput (t : Int) (ciphertext : List Byte) : List Byte :=
  PutUint32 0 ++ PutUint32 (uint32 t) ++ ciphertext

/-- A toy cipher for the round trip: 4088 zero bytes, a marker byte `01`, then the plaintext.
Key and key usage are not looked at. -/
def padEncrypt (p : List Byte) (_k : EncryptionKey) (_usage : Nat) : List Byte :=
  List.replicate 4088 (0 : Byte) ++ 1 :: p

/-- A toy encoding of a `CredentialData` without record content: one zero byte per record. -/
def unitEncode (d : CredentialData Unit) : List Byte := List.replicate d.CredentialCount 0

/-- The external routines that undo `padEncrypt` and `unitEncode`: decryption checks the
marker byte at offset 4088 and returns what follows it; decoding counts the bytes. -/
def padEnv : Env Unit :=
  { DecryptMessage := fun ct _ _ =>
      if (ct.drop 4088).head? = some 1 then ((ct.drop 4088).tail, none)
      else ([], some (GoError.errorString "integrity check failed"))
    Decode := fun b _ => (⟨b.length, List.replicate b.length ()⟩, none) }

/-- A test double whose decryption routine returns its ciphertext and whose inner decoder
overwrites its target (count of bytes given, no records) and then fails. -/
def partialDecodeEnv : Env Unit :=
  { DecryptMessage := fun ct _ _ => (ct, none)
    Decode := fun b _ => (⟨b.length, []⟩, some (GoError.errorString "unexpected EOF")) }

/-- An input of 4097 bytes: version 0, encryption type 18, and a payload of 4088 zero bytes
followed by one byte `01`. -/
def longInput : List Byte :=
  [0, 0, 0, 0, 18, 0, 0, 0] ++ (List.replicate 4088 (0 : Byte) ++ [1])

/-! ## The readers: what the three reads of `Unmarshal` return -/

theorem or_shiftLeft_eq_add (x y k : Nat) (h : x < 2 ^ k) : x ||| (y <<< k) = x + 2 ^ k * y := by
  rw [Nat.shiftLeft_eq, Nat.mul_comm, Nat.or_comm, ← Nat.mul_add_lt_is_or h, Nat.add_comm]

theorem LittleEndianUint32_eq (b0 b1 b2 b3 : Byte) :
    LittleEndianUint32 b0 b1 b2 b3 =
      b0.val + 2 ^ 8 * b1.val + 2 ^ 16 * b2.val + 2 ^ 24 * b3.val := by
  unfold LittleEndianUint32
  have h0 := b0.isLt
  have h1 := b1.isLt
  have h2 := b2.isLt
  rw [or_shiftLeft_eq_add _ _ 8 (by omega), or_shiftLeft_eq_add _ _ 16 (by omega),
    or_shiftLeft_eq_add _ _ 24 (by omega)]

theorem LittleEndianUint32_lt (b0 b1 b2 b3 : Byte) : LittleEndianUint32 b0 b1 b2 b3 < 2 ^ 32 := by
  rw [LittleEndianUint32_eq]
  have h0 := b0.isLt
  have h1 := b1.isLt
  have h2 := b2.isLt
  have h3 := b3.isLt
  omega

theorem Uint32_first (b0 b1 b2 b3 : Byte) (rest : List Byte) :
    (Reader.NewReader (BytesReader.NewReader (b0 :: b1 :: b2 :: b3 :: rest))).Uint32 =
      some (⟨⟨⟨b0 :: b1 :: b2 :: b3 :: rest, min 4096 (rest.length + 4)⟩, rest.take 4092, none⟩⟩,
        LittleEndianUint32 b0 b1 b2 b3, none) := by
  simp [Reader.Uint32, Reader.ReadBytes, Reader.NewReader, BufioReader.NewReader,
    BytesReader.NewReader, BufioReader.Read, BytesReader.Read, SizeUint32, defaultBufSize,
    Uint32OfBytes]
  omega

theorem Uint32_second (s : List Byte) (i : Nat) (b4 b5 b6 b7 : Byte) (rest : List Byte) :
    (Reader.mk ⟨⟨s, i⟩, b4 :: b5 :: b6 :: b7 :: rest, none⟩).Uint32 =
      some (⟨⟨⟨s, i⟩, rest, none⟩⟩, LittleEndianUint32 b4 b5 b6 b7, none) := by
  simp [Reader.Uint32, Reader.ReadBytes, BufioReader.Read, SizeUint32, Uint32OfBytes]

theorem ReadBytes_payload (s : List Byte) (i : Nat) (payload : List Byte) :
    (Reader.mk ⟨⟨s, i⟩, payload.take 4088, none⟩).ReadBytes
        (((payload.length + 8 : Nat) : Int) - 8) =
      some (⟨⟨⟨s, i⟩, [], none⟩⟩, payloadRead payload,
        if payload.length ≤ 4088 then none
        else some (GoError.errorString "error reading bytes from stream: <nil>")) := by
  cases payload with
  | nil => simp [Reader.ReadBytes, BufioReader.Read, payloadRead]
  | cons a l =>
    simp [Reader.ReadBytes, BufioReader.Read, payloadRead]
    refine ⟨by omega, ?_⟩
    have h1 : List.drop l.length (List.take 4087 l) = [] := List.drop_eq_nil_of_le (by simp)
    have h2 : List.take l.length (List.take 4087 l) = List.take 4087 l :=
      List.take_of_length_le (by simp)
    have h3 : l.length - min 4087 l.length = l.length - 4087 := by omega
    rw [h1, h2, h3]
    by_cases h : 4087 < l.length
    · simp [h, fmtV]
    · simp [h, Nat.le_of_not_lt h]

theorem payloadRead_length (payload : List Byte) :
    (payloadRead payload).length = payload.length := by
  simp [payloadRead]
  omega

theorem payloadRead_of_le (payload : List Byte) (h : payload.length ≤ 4088) :
    payloadRead payload = payload := by
  simp [payloadRead, List.take_of_length_le h, Nat.sub_eq_zero_of_le h]

/-! ## `Unmarshal` on an input with a valid header, and on a short input -/

theorem Unmarshal_header {Cred : Type} (env : Env Cred) (c : CredentialsInfo Cred)
    (k : EncryptionKey) (b0 b1 b2 b3 b4 b5 b6 b7 : Byte) (payload : List Byte)
    (hv : LittleEndianUint32 b0 b1 b2 b3 = 0) :
    CredentialsInfo.Unmarshal env c (b0 :: b1 :: b2 :: b3 :: b4 :: b5 :: b6 :: b7 :: payload) k =
      some (wrapDecrypt (CredentialsInfo.DecryptEncPart env
        { c with Version := 0, EType := LittleEndianUint32 b4 b5 b6 b7,
                 PACCredentialDataEncrypted := payloadRead payload } k)) := by
  have h : List.take 4092 (b4 :: b5 :: b6 :: b7 :: payload) =
      b4 :: b5 :: b6 :: b7 :: payload.take 4088 := by simp
  have hl : (((b0 :: b1 :: b2 :: b3 :: b4 :: b5 :: b6 :: b7 :: payload).length : Nat) : Int) - 8
      = ((payload.length + 8 : Nat) : Int) - 8 := by
    simp only [List.length_cons]
  simp only [CredentialsInfo.Unmarshal, Uint32_first, hv, h, Uint32_second, hl, ReadBytes_payload]
  simp [wrapDecrypt, fmtV]
  split <;> simp_all

theorem eq_cons_of_length_ge_eight (b : List Byte) (h : 8 ≤ b.length) :
    b = byteAt b 0 :: byteAt b 1 :: byteAt b 2 :: byteAt b 3 :: byteAt b 4 :: byteAt b 5 ::
      byteAt b 6 :: byteAt b 7 :: b.drop 8 := by
  rcases b with _ | ⟨b0, _ | ⟨b1, _ | ⟨b2, _ | ⟨b3, _ | ⟨b4, _ | ⟨b5, _ | ⟨b6, _ | ⟨b7, p⟩⟩⟩⟩⟩⟩⟩⟩
  all_goals first
    | (simp at h; done)
    | simp [byteAt]

theorem Unmarshal_valid_header {Cred : Type} (env : Env Cred) (c : CredentialsInfo Cred)
    (b : List Byte) (k : EncryptionKey) (hlen : 8 ≤ b.length) (hv : versionField b = 0) :
    CredentialsInfo.Unmarshal env c b k =
      some (wrapDecrypt (CredentialsInfo.DecryptEncPart env
        { c with Version := 0, EType := etypeField b,
                 PACCredentialDataEncrypted := payloadRead (b.drop 8) } k)) := by
  have hb := eq_cons_of_length_ge_eight b hlen
  have h := Unmarshal_header env c k (byteAt b 0) (byteAt b 1) (byteAt b 2) (byteAt b 3)
    (byteAt b 4) (byteAt b 5) (byteAt b 6) (byteAt b 7) (b.drop 8) hv
  rw [← hb] at h
  exact h

theorem Unmarshal_bad_version {Cred : Type} (env : Env Cred) (c : CredentialsInfo Cred)
    (b : List Byte) (k : EncryptionKey) (hlen : 4 ≤ b.length) (hv : versionField b ≠ 0) :
    CredentialsInfo.Unmarshal env c b k =
      some { c := { c with Version := versionField b }, err := some versionError, calls := [] } := by
  rcases b with _ | ⟨b0, _ | ⟨b1, _ | ⟨b2, _ | ⟨b3, rest⟩⟩⟩⟩
  all_goals first
    | (simp at hlen; done)
    | skip
  simp only [versionField, byteAt, List.getD_cons_zero, List.getD_cons_succ] at hv ⊢
  simp [CredentialsInfo.Unmarshal, Uint32_first, hv, versionError]

theorem Unmarshal_short {Cred : Type} (env : Env Cred) (c : CredentialsInfo Cred)
    (b : List Byte) (k : EncryptionKey) (hlen : b.length < 8) :
    ∃ c1, CredentialsInfo.Unmarshal env c b k =
      some { c := c1
             err := some (if 4 ≤ b.length ∧ versionField b ≠ 0 then versionError
               else GoError.errorString ("error reading bytes from stream: " ++
                 (if b.length % 4 = 0 then "EOF" else "<nil>")))
             calls := [] } := by
  by_cases h4 : 4 ≤ b.length
  · by_cases hv : versionField b = 0
    · rcases b with _ | ⟨b0, _ | ⟨b1, _ | ⟨b2, _ | ⟨b3, _ | ⟨b4, _ | ⟨b5, _ | ⟨b6, _ | ⟨b7, p⟩⟩⟩⟩⟩⟩⟩⟩
      all_goals first
        | (simp at h4; done)
        | (simp at hlen; omega)
        | skip
      all_goals
        simp only [versionField, byteAt, List.getD_cons_zero, List.getD_cons_succ] at hv
        simp only [CredentialsInfo.Unmarshal, Uint32_first, hv]
        simp [versionField, byteAt, hv,
          Reader.Uint32, Reader.ReadBytes, BufioReader.Read, BytesReader.Read, SizeUint32,
          defaultBufSize, fmtV, GoError.Error]
    · refine ⟨{ c with Version := versionField b }, ?_⟩
      rw [Unmarshal_bad_version env c b k h4 hv]
      simp [h4, hv]
  · rcases b with _ | ⟨b0, _ | ⟨b1, _ | ⟨b2, _ | ⟨b3, rest⟩⟩⟩⟩
    all_goals first
      | (simp at h4; done)
      | skip
    all_goals
      simp [CredentialsInfo.Unmarshal, Reader.Uint32, Reader.ReadBytes, BufioReader.Read,
        BytesReader.Read, SizeUint32, defaultBufSize, fmtV, GoError.Error, Reader.NewReader,
        BufioReader.NewReader, BytesReader.NewReader]

/-! ## What `DecryptEncPart` and the wrapper leave alone -/

theorem DecryptEncPart_frame {Cred : Type} (env : Env Cred) (c : CredentialsInfo Cred)
    (k : EncryptionKey) :
    (CredentialsInfo.DecryptEncPart env c k).c.Version = c.Version ∧
    (CredentialsInfo.DecryptEncPart env c k).c.EType = c.EType ∧
    (CredentialsInfo.DecryptEncPart env c k).c.PACCredentialDataEncrypted =
      c.PACCredentialDataEncrypted := by
  unfold CredentialsInfo.DecryptEncPart
  split
  · simp
  · simp only
    split <;> simp

theorem wrapDecrypt_c {Cred : Type} (out : Outcome Cred) : (wrapDecrypt out).c = out.c := by
  unfold wrapDecrypt
  split <;> rfl

theorem wrapDecrypt_calls {Cred : Type} (out : Outcome Cred) :
    (wrapDecrypt out).calls = out.calls := by
  unfold wrapDecrypt
  split <;> rfl

theorem wrapDecrypt_err_eq_none {Cred : Type} (out : Outcome Cred) :
    (wrapDecrypt out).err = none ↔ out.err = none := by
  unfold wrapDecrypt
  split <;> simp_all

/-! ## The key-type guard (C1) -/

/-- C1, as stated, fails: header encryption type `0xFFFFFFFF` and key type `-1` differ as
integers, yet the guard lets the key through: `Unmarshal` returns no error and both the
decryption routine and the inner decoder are invoked. -/
theorem C1_counterexample :
    8 ≤ ([0, 0, 0, 0, 255, 255, 255, 255] : List Byte).length ∧
    versionField [0, 0, 0, 0, 255, 255, 255, 255] = 0 ∧
    (EncryptionKey.mk (-1) []).KeyType ≠ ((etypeField [0, 0, 0, 0, 255, 255, 255, 255] : Nat) : Int) ∧
    CredentialsInfo.Unmarshal echoEnv sampleInfo [0, 0, 0, 0, 255, 255, 255, 255] ⟨-1, []⟩ =
      some { c := { Version := 0, EType := 4294967295, PACCredentialDataEncrypted := [],
                    PACCredentialData := ⟨0, []⟩ }
             err := none
             calls := [Call.DecryptMessage [] ⟨-1, []⟩ 16, Call.Decode []] } := by
  decide

/-- C1, amended: for every input of at least 8 bytes with version 0 and every key whose type
differs from `int32(EType)`, the header's encryption type converted to signed 32-bit,
`Unmarshal` returns the key-type error of `DecryptEncPart` under its wrapper
`error decrypting PAC Credentials Data: `, and invokes neither external routine; and
`DecryptEncPart` called on any record with that `EType` returns the key-type error itself,
leaves the record as it was and invokes neither external routine. -/
theorem C1_key_type_guard {Cred : Type} (env : Env Cred) (c : CredentialsInfo Cred)
    (b : List Byte) (k : EncryptionKey) (hlen : 8 ≤ b.length) (hv : versionField b = 0)
    (hk : k.KeyType ≠ int32 (etypeField b)) :
    CredentialsInfo.Unmarshal env c b k =
      some { c := { c with Version := 0, EType := etypeField b,
                           PACCredentialDataEncrypted := payloadRead (b.drop 8) }
             err := some (GoError.errorString ("error decrypting PAC Credentials Data: " ++
               (keyTypeError (etypeField b) k.KeyType).Error))
             calls := [] } ∧
    ∀ c1 : CredentialsInfo Cred, c1.EType = etypeField b →
      CredentialsInfo.DecryptEncPart env c1 k =
        { c := c1, err := some (keyTypeError (etypeField b) k.KeyType), calls := [] } := by
  constructor
  · rw [Unmarshal_valid_header env c b k hlen hv]
    simp [CredentialsInfo.DecryptEncPart, hk, wrapDecrypt, keyTypeError]
  · intro c1 h1
    simp [CredentialsInfo.DecryptEncPart, h1, hk, keyTypeError]

/-- Witness for C1 (amended): version 0, encryption type 18, a key of type 23. -/
theorem C1_key_type_guard_witness :
    8 ≤ ([0, 0, 0, 0, 18, 0, 0, 0, 5, 6] : List Byte).length ∧
    versionField [0, 0, 0, 0, 18, 0, 0, 0, 5, 6] = 0 ∧
    (23 : Int) ≠ int32 (etypeField [0, 0, 0, 0, 18, 0, 0, 0, 5, 6]) ∧
    CredentialsInfo.Unmarshal echoEnv sampleInfo [0, 0, 0, 0, 18, 0, 0, 0, 5, 6] ⟨23, []⟩ =
      some { c := { Version := 0, EType := 18, PACCredentialDataEncrypted := [5, 6],
                    PACCredentialData := ⟨3, [()]⟩ }
             err := some (GoError.errorString
               "error decrypting PAC Credentials Data: key provided is not the correct type. Type needed: 18, type provided: 23")
             calls := [] } :=
  ⟨by decide, by decide, by decide,
    (C1_key_type_guard echoEnv sampleInfo [0, 0, 0, 0, 18, 0, 0, 0, 5, 6] ⟨23, []⟩
      (by decide) (by decide) (by decide)).1⟩

/-! ## The version check (C2) -/

/-- C2: for every input of at least 4 bytes whose first four bytes are a nonzero little-endian
value, and every key, `Unmarshal` returns the error `credentials info version is not zero`,
whatever follows the four bytes, and invokes neither external routine. -/
theorem C2_unsupported_version {Cred : Type} (env : Env Cred) (c : CredentialsInfo Cred)
    (b : List Byte) (k : EncryptionKey) (hlen : 4 ≤ b.length) (hv : versionField b ≠ 0) :
    CredentialsInfo.Unmarshal env c b k =
      some { c := { c with Version := versionField b }
             err := some (GoError.errorString "credentials info version is not zero")
             calls := [] } :=
  Unmarshal_bad_version env c b k hlen hv

/-- Witness for C2: version 1 followed by a single byte. -/
theorem C2_unsupported_version_witness :
    4 ≤ ([1, 0, 0, 0, 9] : List Byte).length ∧ versionField [1, 0, 0, 0, 9] ≠ 0 ∧
    CredentialsInfo.Unmarshal echoEnv sampleInfo [1, 0, 0, 0, 9] ⟨-5, []⟩ =
      some { c := { sampleInfo with Version := versionField [1, 0, 0, 0, 9] }
             err := some (GoError.errorString "credentials info version is not zero")
             calls := [] } :=
  ⟨by decide, by decide,
    C2_unsupported_version echoEnv sampleInfo [1, 0, 0, 0, 9] ⟨-5, []⟩ (by decide) (by decide)⟩

/-! ## Inputs shorter than the header (C3) -/

/-- C3, as stated, fails: on the 4-byte input `01 00 00 00` the first 32-bit read succeeds
and `Unmarshal` fails with the version error, not with the error of a failed read. -/
theorem C3_counterexample :
    ([1, 0, 0, 0] : List Byte).length < 8 ∧
    (Reader.NewReader (BytesReader.NewReader [1, 0, 0, 0])).Uint32 =
      some (⟨⟨⟨[1, 0, 0, 0], 4⟩, [], none⟩⟩, 1, none) ∧
    CredentialsInfo.Unmarshal echoEnv sampleInfo [1, 0, 0, 0] ⟨18, []⟩ =
      some { c := { sampleInfo with Version := 1 }
             err := some (GoError.errorString "credentials info version is not zero")
             calls := [] } := by
  decide

/-- C3, amended: for every input shorter than 8 bytes and every key, `Unmarshal` fails and
invokes neither external routine. The error is the version error when the input has at least
4 bytes of which the first four are not all zero; in every other case it is the error of the
failed 32-bit read, `error reading bytes from stream: ` followed by `EOF` (lengths 0 and 4)
or by `<nil>` (lengths 1, 2, 3, 5, 6, 7). -/
theorem C3_short_input {Cred : Type} (env : Env Cred) (c : CredentialsInfo Cred)
    (b : List Byte) (k : EncryptionKey) (hlen : b.length < 8) :
    ∃ c1, CredentialsInfo.Unmarshal env c b k =
      some { c := c1
             err := some (if 4 ≤ b.length ∧ versionField b ≠ 0
               then GoError.errorString "credentials info version is not zero"
               else GoError.errorString ("error reading bytes from stream: " ++
                 (if b.length % 4 = 0 then "EOF" else "<nil>")))
             calls := [] } :=
  Unmarshal_short env c b k hlen

/-- Witness for C3 (amended): a 5-byte input with version 0. -/
theorem C3_short_input_witness :
    ([0, 0, 0, 0, 18] : List Byte).length < 8 ∧
    ∃ c1, CredentialsInfo.Unmarshal echoEnv sampleInfo [0, 0, 0, 0, 18] ⟨18, []⟩ =
      some { c := c1
             err := some (GoError.errorString "error reading bytes from stream: <nil>")
             calls := [] } :=
  ⟨by decide, C3_short_input echoEnv sampleInfo [0, 0, 0, 0, 18] ⟨18, []⟩ (by decide)⟩

/-! ## The encrypted payload (C4) -/

theorem Unmarshal_payload {Cred : Type} (env : Env Cred) (c : CredentialsInfo Cred)
    (b : List Byte) (k : EncryptionKey) (hlen : 8 ≤ b.length) (hv : versionField b = 0) :
    ∃ out, CredentialsInfo.Unmarshal env c b k = some out ∧
      out.c.PACCredentialDataEncrypted = payloadRead (b.drop 8) := by
  refine ⟨_, Unmarshal_valid_header env c b k hlen hv, ?_⟩
  rw [wrapDecrypt_c, (DecryptEncPart_frame env _ k).2.2]

/-- The payload field is the rest of the input whenever the input fits the reader's buffer:
for every input of 8 to 4096 bytes with version 0, `PACCredentialDataEncrypted` is `b[8:]`;
and for every length it has `len(b) - 8` bytes. -/
theorem Unmarshal_payload_of_le {Cred : Type} (env : Env Cred) (c : CredentialsInfo Cred)
    (b : List Byte) (k : EncryptionKey) (hlen : 8 ≤ b.length) (hv : versionField b = 0) :
    ∃ out, CredentialsInfo.Unmarshal env c b k = some out ∧
      out.c.PACCredentialDataEncrypted.length = b.length - 8 ∧
      (b.length ≤ 4096 → out.c.PACCredentialDataEncrypted = b.drop 8) := by
  obtain ⟨out, h1, h2⟩ := Unmarshal_payload env c b k hlen hv
  refine ⟨out, h1, ?_, ?_⟩
  · rw [h2, payloadRead_length, List.length_drop]
  · intro hle
    rw [h2, payloadRead_of_le]
    rw [List.length_drop]
    omega

theorem payloadRead_append_singleton (p : List Byte) (x : Byte) (hp : p.length = 4088) :
    payloadRead (p ++ [x]) = p ++ [0] := by
  have h : List.take 4088 (p ++ [x]) = p := List.take_left' hp
  have h2 : (p ++ [x]).length - 4088 = 1 := by
    rw [List.length_append, hp, List.length_singleton]
  unfold payloadRead
  rw [h, h2, List.replicate_one]

theorem Unmarshal_long_payload (p : List Byte) (x : Byte) (hp : p.length = 4088) :
    ∃ out, CredentialsInfo.Unmarshal echoEnv sampleInfo
        (0 :: 0 :: 0 :: 0 :: 18 :: 0 :: 0 :: 0 :: (p ++ [x])) ⟨18, []⟩ = some out ∧
      out.c.PACCredentialDataEncrypted = p ++ [0] ∧
      out.calls.head? = some (Call.DecryptMessage (p ++ [0]) ⟨18, []⟩ 16) := by
  refine ⟨_, Unmarshal_header echoEnv sampleInfo ⟨18, []⟩ 0 0 0 0 18 0 0 0 _ (by decide), ?_, ?_⟩
  · rw [wrapDecrypt_c, (DecryptEncPart_frame echoEnv _ _).2.2]
    exact payloadRead_append_singleton p x hp
  · have hk : (18 : Int) = int32 (LittleEndianUint32 18 0 0 0) := by decide
    rw [wrapDecrypt_calls, payloadRead_append_singleton p x hp]
    simp [CredentialsInfo.DecryptEncPart, KERB_NON_KERB_SALT, ← hk, echoEnv,
      CredentialData.Unmarshal]

/-- C4 at the input `longInput` (4097 bytes, the last one `01`): the payload field gets the
right length, 4089, but holds 4089 zero bytes, so its last byte is not the input's; and it is
this sequence that the decryption routine receives. -/
theorem C4_payload_truncated :
    longInput.length = 4097 ∧ versionField longInput = 0 ∧
    ∃ out, CredentialsInfo.Unmarshal echoEnv sampleInfo longInput ⟨18, []⟩ = some out ∧
      out.c.PACCredentialDataEncrypted = List.replicate 4088 (0 : Byte) ++ [0] ∧
      out.c.PACCredentialDataEncrypted.length = longInput.length - 8 ∧
      out.c.PACCredentialDataEncrypted ≠ longInput.drop 8 ∧
      out.calls.head? =
        some (Call.DecryptMessage (List.replicate 4088 (0 : Byte) ++ [0]) ⟨18, []⟩ 16) := by
  have hb : longInput =
      0 :: 0 :: 0 :: 0 :: 18 :: 0 :: 0 :: 0 :: (List.replicate 4088 (0 : Byte) ++ [1]) := rfl
  have hl : longInput.length = 4097 := by
    rw [hb]
    simp only [List.length_cons, List.length_append, List.length_replicate, List.length_nil]
  obtain ⟨out, h1, h2, h3⟩ :=
    Unmarshal_long_payload (List.replicate 4088 (0 : Byte)) 1 (List.length_replicate _ _)
  refine ⟨hl, ?_, out, ?_, h2, ?_, ?_, h3⟩
  · rw [hb]
    rfl
  · rw [hb]
    exact h1
  · rw [h2, hl, List.length_append, List.length_replicate, List.length_singleton]
  · rw [h2, hb]
    intro h
    exact absurd (List.append_cancel_left h) (by decide)

/-! ## The header fields (C5) -/

theorem versionField_eq (b : List Byte) :
    versionField b = (byteAt b 0).val + 2 ^ 8 * (byteAt b 1).val + 2 ^ 16 * (byteAt b 2).val +
      2 ^ 24 * (byteAt b 3).val :=
  LittleEndianUint32_eq _ _ _ _

theorem etypeField_eq (b : List Byte) :
    etypeField b = (byteAt b 4).val + 2 ^ 8 * (byteAt b 5).val + 2 ^ 16 * (byteAt b 6).val +
      2 ^ 24 * (byteAt b 7).val :=
  LittleEndianUint32_eq _ _ _ _

/-- C5: for every input `b` of at least 8 bytes, `Unmarshal` returns with `Version` equal to
`b[0] + 2^8*b[1] + 2^16*b[2] + 2^24*b[3]`, and when that value is 0 with `EType` equal to
`b[4] + 2^8*b[5] + 2^16*b[6] + 2^24*b[7]`; and after every call (on any input) that returns
no error, the input had at least 8 bytes, `Version` is 0 and `EType` is the little-endian
value of bytes `[4,8)`. -/
theorem C5_header_fields {Cred : Type} (env : Env Cred) (c : CredentialsInfo Cred)
    (b : List Byte) (k : EncryptionKey) :
    (8 ≤ b.length → ∃ out, CredentialsInfo.Unmarshal env c b k = some out ∧
      out.c.Version = (byteAt b 0).val + 2 ^ 8 * (byteAt b 1).val + 2 ^ 16 * (byteAt b 2).val +
        2 ^ 24 * (byteAt b 3).val ∧
      (out.c.Version = 0 →
        out.c.EType = (byteAt b 4).val + 2 ^ 8 * (byteAt b 5).val +
          2 ^ 16 * (byteAt b 6).val + 2 ^ 24 * (byteAt b 7).val)) ∧
    (∀ out, CredentialsInfo.Unmarshal env c b k = some out → out.err = none →
      8 ≤ b.length ∧ out.c.Version = 0 ∧
      out.c.EType = (byteAt b 4).val + 2 ^ 8 * (byteAt b 5).val +
        2 ^ 16 * (byteAt b 6).val + 2 ^ 24 * (byteAt b 7).val) := by
  constructor
  · intro hlen
    by_cases hv : versionField b = 0
    · refine ⟨_, Unmarshal_valid_header env c b k hlen hv, ?_, ?_⟩
      · rw [wrapDecrypt_c, (DecryptEncPart_frame env _ k).1, ← versionField_eq, hv]
      · intro _
        rw [wrapDecrypt_c, (DecryptEncPart_frame env _ k).2.1, ← etypeField_eq]
    · refine ⟨_, Unmarshal_bad_version env c b k (by omega) hv, versionField_eq b, ?_⟩
      intro h0
      exact absurd h0 hv
  · intro out hout herr
    by_cases hlen : 8 ≤ b.length
    · by_cases hv : versionField b = 0
      · rw [Unmarshal_valid_header env c b k hlen hv] at hout
        cases hout
        refine ⟨hlen, ?_, ?_⟩
        · rw [wrapDecrypt_c, (DecryptEncPart_frame env _ k).1]
        · rw [wrapDecrypt_c, (DecryptEncPart_frame env _ k).2.1, ← etypeField_eq]
      · rw [Unmarshal_bad_version env c b k (by omega) hv] at hout
        cases hout
        simp at herr
    · obtain ⟨c1, h1⟩ := Unmarshal_short env c b k (by omega)
      rw [h1] at hout
      cases hout
      simp at herr

/-- Witness for C5: version 0, encryption type `0x0112 = 274`, two payload bytes. -/
theorem C5_header_fields_witness :
    8 ≤ ([0, 0, 0, 0, 18, 1, 0, 0, 5, 6] : List Byte).length ∧
    ∃ out, CredentialsInfo.Unmarshal echoEnv sampleInfo [0, 0, 0, 0, 18, 1, 0, 0, 5, 6] ⟨274, []⟩ =
        some out ∧
      out.c.Version = 0 ∧ (out.c.Version = 0 → out.c.EType = 274) :=
  ⟨by decide,
    (C5_header_fields echoEnv sampleInfo [0, 0, 0, 0, 18, 1, 0, 0, 5, 6] ⟨274, []⟩).1 (by decide)⟩

/-! ## Decryption and inner decoding (C6, C8) -/

theorem DecryptEncPart_of_guard {Cred : Type} (env : Env Cred) (c : CredentialsInfo Cred)
    (k : EncryptionKey) (hk : k.KeyType = int32 c.EType) :
    CredentialsInfo.DecryptEncPart env c k =
      match (env.DecryptMessage c.PACCredentialDataEncrypted k KERB_NON_KERB_SALT).2 with
      | some e =>
        { c := c, err := some e
          calls := [Call.DecryptMessage c.PACCredentialDataEncrypted k KERB_NON_KERB_SALT] }
      | none =>
        { c := { c with PACCredentialData := (CredentialData.Unmarshal env c.PACCredentialData
              (env.DecryptMessage c.PACCredentialDataEncrypted k KERB_NON_KERB_SALT).1).1 }
          err := (CredentialData.Unmarshal env c.PACCredentialData
              (env.DecryptMessage c.PACCredentialDataEncrypted k KERB_NON_KERB_SALT).1).2
          calls := [Call.DecryptMessage c.PACCredentialDataEncrypted k KERB_NON_KERB_SALT,
            Call.Decode (env.DecryptMessage c.PACCredentialDataEncrypted k KERB_NON_KERB_SALT).1] } := by
  simp [CredentialsInfo.DecryptEncPart, hk]

/-- Decryption and decoding after a valid header: for every input with a valid header (at
least 8 bytes, version 0) and every key that passes the key-type check, `Unmarshal` invokes
the decryption routine exactly once, on the payload as read (`payloadRead` of `b[8:]`), the
caller's key and key usage 16; if that returns plaintext `pt` without error, the call log is
exactly that invocation followed by one invocation of the inner decoder on `pt`; and if the
decoder then succeeds, `Unmarshal` returns no error and `PACCredentialData` is what the
decoder produced. -/
theorem decrypt_then_decode {Cred : Type} (env : Env Cred) (c : CredentialsInfo Cred)
    (b : List Byte) (k : EncryptionKey) (hlen : 8 ≤ b.length) (hv : versionField b = 0)
    (hk : k.KeyType = int32 (etypeField b)) :
    ∃ out, CredentialsInfo.Unmarshal env c b k = some out ∧
      out.c.PACCredentialDataEncrypted = payloadRead (b.drop 8) ∧
      out.calls.filter Call.isDecryptMessage =
        [Call.DecryptMessage (payloadRead (b.drop 8)) k 16] ∧
      out.calls.head? = some (Call.DecryptMessage (payloadRead (b.drop 8)) k 16) ∧
      ((env.DecryptMessage (payloadRead (b.drop 8)) k 16).2 = none →
        out.calls = [Call.DecryptMessage (payloadRead (b.drop 8)) k 16,
          Call.Decode (env.DecryptMessage (payloadRead (b.drop 8)) k 16).1] ∧
        ((env.Decode (env.DecryptMessage (payloadRead (b.drop 8)) k 16).1
            c.PACCredentialData).2 = none →
          out.err = none ∧
          out.c.PACCredentialData =
            (env.Decode (env.DecryptMessage (payloadRead (b.drop 8)) k 16).1
              c.PACCredentialData).1)) := by
  refine ⟨_, Unmarshal_valid_header env c b k hlen hv, ?_⟩
  rw [DecryptEncPart_of_guard env _ k hk]
  simp only [KERB_NON_KERB_SALT]
  cases hdm : (env.DecryptMessage (payloadRead (List.drop 8 b)) k 16).2 with
  | some e => simp [wrapDecrypt, Call.isDecryptMessage, hdm]
  | none =>
    cases hdec : (env.Decode (env.DecryptMessage (payloadRead (List.drop 8 b)) k 16).1
        c.PACCredentialData).2 with
    | some e =>
      simp [wrapDecrypt, Call.isDecryptMessage, hdm, hdec, CredentialData.Unmarshal]
    | none =>
      simp [wrapDecrypt, Call.isDecryptMessage, hdm, hdec, CredentialData.Unmarshal]

/-- For inputs of at most 4096 bytes the decryption routine receives exactly the rest of the
input: with a valid header and a key that passes the key-type check, `Unmarshal` invokes the
decryption routine exactly once, on `(b[8:], k, 16)`; if that returns plaintext `pt` the
inner decoder is invoked exactly once, on `pt`; and if that succeeds `Unmarshal` returns no
error and `PACCredentialData` is the decoder's result. -/
theorem decrypt_then_decode_of_le {Cred : Type} (env : Env Cred) (c : CredentialsInfo Cred)
    (b : List Byte) (k : EncryptionKey) (hlen : 8 ≤ b.length) (hle : b.length ≤ 4096)
    (hv : versionField b = 0) (hk : k.KeyType = int32 (etypeField b)) :
    ∃ out, CredentialsInfo.Unmarshal env c b k = some out ∧
      out.c.PACCredentialDataEncrypted = b.drop 8 ∧
      out.calls.filter Call.isDecryptMessage = [Call.DecryptMessage (b.drop 8) k 16] ∧
      out.calls.head? = some (Call.DecryptMessage (b.drop 8) k 16) ∧
      ((env.DecryptMessage (b.drop 8) k 16).2 = none →
        out.calls = [Call.DecryptMessage (b.drop 8) k 16,
          Call.Decode (env.DecryptMessage (b.drop 8) k 16).1] ∧
        ((env.Decode (env.DecryptMessage (b.drop 8) k 16).1 c.PACCredentialData).2 = none →
          out.err = none ∧
          out.c.PACCredentialData =
            (env.Decode (env.DecryptMessage (b.drop 8) k 16).1 c.PACCredentialData).1)) := by
  have h := decrypt_then_decode env c b k hlen hv hk
  have hp : payloadRead (b.drop 8) = b.drop 8 :=
    payloadRead_of_le _ (by rw [List.length_drop]; omega)
  rw [hp] at h
  exact h

theorem Unmarshal_long_calls (p : List Byte) (x : Byte) (hp : p.length = 4088) :
    ∃ out, CredentialsInfo.Unmarshal echoEnv sampleInfo
        (0 :: 0 :: 0 :: 0 :: 18 :: 0 :: 0 :: 0 :: (p ++ [x])) ⟨18, []⟩ = some out ∧
      out.err = none ∧
      out.calls = [Call.DecryptMessage (p ++ [0]) ⟨18, []⟩ 16, Call.Decode (p ++ [0])] := by
  refine ⟨_, Unmarshal_header echoEnv sampleInfo ⟨18, []⟩ 0 0 0 0 18 0 0 0 _ (by decide), ?_, ?_⟩
  · have hk : (18 : Int) = int32 (LittleEndianUint32 18 0 0 0) := by decide
    rw [wrapDecrypt_err_eq_none]
    simp [CredentialsInfo.DecryptEncPart, ← hk, echoEnv, CredentialData.Unmarshal]
  · have hk : (18 : Int) = int32 (LittleEndianUint32 18 0 0 0) := by decide
    rw [wrapDecrypt_calls, payloadRead_append_singleton p x hp]
    simp [CredentialsInfo.DecryptEncPart, KERB_NON_KERB_SALT, ← hk, echoEnv,
      CredentialData.Unmarshal]

/-- C6 at the input `longInput` (4097 bytes: version 0, encryption type 18, a payload of 4088
zero bytes and a last byte `01`) with a key of type 18, which passes the key-type check: the
decryption routine is invoked once and the inner decoder once, `Unmarshal` returns no error,
but the ciphertext handed to the decryption routine is 4089 zero bytes, which is not the
encrypted payload `b[8:]` of the input; no invocation on `b[8:]` is made. -/
theorem C6_decrypt_argument_truncated :
    8 ≤ longInput.length ∧ versionField longInput = 0 ∧
    (EncryptionKey.mk 18 []).KeyType = int32 (etypeField longInput) ∧
    ∃ out, CredentialsInfo.Unmarshal echoEnv sampleInfo longInput ⟨18, []⟩ = some out ∧
      out.err = none ∧
      out.calls = [Call.DecryptMessage (List.replicate 4088 (0 : Byte) ++ [0]) ⟨18, []⟩ 16,
        Call.Decode (List.replicate 4088 (0 : Byte) ++ [0])] ∧
      List.replicate 4088 (0 : Byte) ++ [0] ≠ longInput.drop 8 ∧
      Call.DecryptMessage (longInput.drop 8) ⟨18, []⟩ 16 ∉ out.calls := by
  have hb : longInput =
      0 :: 0 :: 0 :: 0 :: 18 :: 0 :: 0 :: 0 :: (List.replicate 4088 (0 : Byte) ++ [1]) := rfl
  have hd : longInput.drop 8 = List.replicate 4088 (0 : Byte) ++ [1] := rfl
  have hne : List.replicate 4088 (0 : Byte) ++ [0] ≠ List.replicate 4088 (0 : Byte) ++ [1] :=
    fun h => absurd (List.append_cancel_left h) (by decide)
  obtain ⟨out, h1, h2, h3⟩ :=
    Unmarshal_long_calls (List.replicate 4088 (0 : Byte)) 1 (List.length_replicate _ _)
  refine ⟨?_, ?_, ?_, out, ?_, h2, h3, ?_, ?_⟩
  · rw [hb]
    simp only [List.length_cons, List.length_append, List.length_replicate, List.length_nil]
    omega
  · rw [hb]
    rfl
  · rw [hb]
    rfl
  · rw [hb]
    exact h1
  · rw [hd]
    exact hne
  · rw [h3, hd]
    intro hmem
    simp only [List.mem_cons, Call.DecryptMessage.injEq, List.mem_singleton, reduceCtorEq,
      or_false, and_true, List.not_mem_nil] at hmem
    exact hne hmem.symm

/-- C8: for every input with a valid header and every key that passes the key-type check,
when the decryption routine returns an error `e`, `Unmarshal` returns the error whose message
is `error decrypting PAC Credentials Data: ` followed by the message of `e`; the call log is
the single invocation of the decryption routine, so it is not invoked again and the inner
decoder is never invoked; `PACCredentialData` is left as it was. -/
theorem C8_decryption_failed {Cred : Type} (env : Env Cred) (c : CredentialsInfo Cred)
    (b : List Byte) (k : EncryptionKey) (e : GoError) (hlen : 8 ≤ b.length)
    (hv : versionField b = 0) (hk : k.KeyType = int32 (etypeField b))
    (he : (env.DecryptMessage (payloadRead (b.drop 8)) k 16).2 = some e) :
    CredentialsInfo.Unmarshal env c b k =
      some { c := { c with Version := 0, EType := etypeField b,
                           PACCredentialDataEncrypted := payloadRead (b.drop 8) }
             err := some (GoError.errorString
               ("error decrypting PAC Credentials Data: " ++ e.Error))
             calls := [Call.DecryptMessage (payloadRead (b.drop 8)) k 16] } := by
  rw [Unmarshal_valid_header env c b k hlen hv, DecryptEncPart_of_guard env _ k hk]
  simp only [KERB_NON_KERB_SALT]
  simp [he, wrapDecrypt]

/-- Witness for C8: a decryption routine that always fails. -/
theorem C8_decryption_failed_witness :
    CredentialsInfo.Unmarshal failingDecryptEnv sampleInfo [0, 0, 0, 0, 18, 0, 0, 0, 5, 6] ⟨18, []⟩ =
      some { c := { Version := 0, EType := 18, PACCredentialDataEncrypted := [5, 6],
                    PACCredentialData := ⟨3, [()]⟩ }
             err := some (GoError.errorString
               "error decrypting PAC Credentials Data: error unmarshaling KerbValidationInfo: unexpected EOF")
             calls := [Call.DecryptMessage [5, 6] ⟨18, []⟩ 16] } :=
  C8_decryption_failed failingDecryptEnv sampleInfo [0, 0, 0, 0, 18, 0, 0, 0, 5, 6] ⟨18, []⟩
    (GoError.errorString "error unmarshaling KerbValidationInfo: unexpected EOF")
    (by decide) (by decide) (by decide) (by decide)

/-! ## Failure of the inner decoder (C9) -/

theorem string_append_left_cancel (a x y : String) (h : a ++ x = a ++ y) : x = y := by
  have h1 := congrArg String.data h
  simp only [String.data_append, List.append_cancel_left_eq] at h1
  exact String.ext h1

theorem unmarshaling_ne_keyType (x y : String) :
    "error unmarshaling KerbValidationInfo: " ++ x ≠
      "key provided is not the correct type. Type needed: " ++ y := by
  intro h
  have h1 := congrArg (fun s => s.data.head?) h
  simp [String.data_append] at h1

theorem unmarshaling_ne_decrypting (x y : String) :
    "error unmarshaling KerbValidationInfo: " ++ x ≠ "error decrypting: " ++ y := by
  intro h
  have h1 := congrArg (fun s => (s.data.drop 6).head?) h
  simp [String.data_append] at h1

/-- C9: for every input with a valid header, every key that passes the key-type check and a
ciphertext that decrypts to `pt`, when the inner decoder fails on `pt` with `e`,
`CredentialData.Unmarshal` returns the error `error unmarshaling KerbValidationInfo: ` followed
by the message of `e`, and `CredentialsInfo.Unmarshal` returns the error wrapping that cause,
`error decrypting PAC Credentials Data: error unmarshaling KerbValidationInfo: ` followed by
the message of `e`, after exactly one decryption and one decoder invocation. This error is
distinct from every key-type error, and from every decryption-failed error whose cause is an
error of `crypto.DecryptMessage`, each of which is built by
`fmt.Errorf("error decrypting: %v", err)` and so has a message that begins
`error decrypting: `. And `CredentialData.Unmarshal` returns no error exactly when the inner
decoder returns none. -/
theorem C9_inner_decode_failed {Cred : Type} (env : Env Cred) (c : CredentialsInfo Cred)
    (b : List Byte) (k : EncryptionKey) (e : GoError) (hlen : 8 ≤ b.length)
    (hv : versionField b = 0) (hk : k.KeyType = int32 (etypeField b))
    (hd : (env.DecryptMessage (payloadRead (b.drop 8)) k 16).2 = none)
    (he : (env.Decode (env.DecryptMessage (payloadRead (b.drop 8)) k 16).1
      c.PACCredentialData).2 = some e) :
    (CredentialData.Unmarshal env c.PACCredentialData
        (env.DecryptMessage (payloadRead (b.drop 8)) k 16).1).2 =
      some (GoError.errorString ("error unmarshaling KerbValidationInfo: " ++ e.Error)) ∧
    (∃ out, CredentialsInfo.Unmarshal env c b k = some out ∧
      out.err = some (GoError.errorString ("error decrypting PAC Credentials Data: " ++
        ("error unmarshaling KerbValidationInfo: " ++ e.Error))) ∧
      out.calls = [Call.DecryptMessage (payloadRead (b.drop 8)) k 16,
        Call.Decode (env.DecryptMessage (payloadRead (b.drop 8)) k 16).1] ∧
      (∀ (e1 : Nat) (t1 : Int), out.err ≠ some (GoError.errorString
        ("error decrypting PAC Credentials Data: " ++ (keyTypeError e1 t1).Error))) ∧
      (∀ (cause : GoError) (s : String), cause.Error = "error decrypting: " ++ s →
        out.err ≠ some (GoError.errorString
          ("error decrypting PAC Credentials Data: " ++ cause.Error)))) ∧
    (∀ (d : CredentialData Cred) (pt : List Byte),
      (CredentialData.Unmarshal env d pt).2 = none ↔ (env.Decode pt d).2 = none) := by
  have h1 : (CredentialData.Unmarshal env c.PACCredentialData
        (env.DecryptMessage (payloadRead (b.drop 8)) k 16).1).2 =
      some (GoError.errorString ("error unmarshaling KerbValidationInfo: " ++ e.Error)) := by
    simp [CredentialData.Unmarshal, he, fmtV]
  refine ⟨h1, ⟨_, Unmarshal_valid_header env c b k hlen hv, ?_⟩, ?_⟩
  · rw [DecryptEncPart_of_guard env _ k hk]
    simp only [KERB_NON_KERB_SALT, hd, wrapDecrypt, h1]
    refine ⟨rfl, trivial, ?_, ?_⟩
    · intro e1 t1 h
      simp only [Option.some.injEq, GoError.errorString.injEq, GoError.Error, keyTypeError] at h
      have h2 := string_append_left_cancel _ _ _ h
      rw [String.append_assoc, String.append_assoc] at h2
      exact unmarshaling_ne_keyType _ _ h2
    · intro cause s hs h
      have h' : "error decrypting PAC Credentials Data: " ++
          ("error unmarshaling KerbValidationInfo: " ++ e.Error) =
          "error decrypting PAC Credentials Data: " ++ cause.Error :=
        GoError.errorString.inj (Option.some.inj h)
      have h2 := string_append_left_cancel _ _ _ h'
      rw [hs] at h2
      exact unmarshaling_ne_decrypting _ _ h2
  · intro d pt
    unfold CredentialData.Unmarshal
    cases h : (env.Decode pt d).2 <;> simp [h]

/-- Witness for C9: decryption succeeds and the inner decoder fails; the error returned is
not the decryption-failed error for the cause `error decrypting: integrity check failed`. -/
theorem C9_inner_decode_failed_witness :
    (CredentialData.Unmarshal failingDecodeEnv sampleInfo.PACCredentialData
        (failingDecodeEnv.DecryptMessage
          (payloadRead (List.drop 8 [0, 0, 0, 0, 18, 0, 0, 0, 5, 6])) ⟨18, []⟩ 16).1).2 =
      some (GoError.errorString "error unmarshaling KerbValidationInfo: unexpected EOF") ∧
    ∃ out, CredentialsInfo.Unmarshal failingDecodeEnv sampleInfo
        [0, 0, 0, 0, 18, 0, 0, 0, 5, 6] ⟨18, []⟩ = some out ∧
      out.err = some (GoError.errorString
        "error decrypting PAC Credentials Data: error unmarshaling KerbValidationInfo: unexpected EOF") ∧
      out.err ≠ some (GoError.errorString ("error decrypting PAC Credentials Data: " ++
        (GoError.errorString "error decrypting: integrity check failed").Error)) :=
  have h := C9_inner_decode_failed failingDecodeEnv sampleInfo [0, 0, 0, 0, 18, 0, 0, 0, 5, 6]
    ⟨18, []⟩ (GoError.errorString "unexpected EOF") (by decide) (by decide) (by decide)
    (by decide) (by decide)
  ⟨h.1, h.2.1.elim fun out ho =>
    ⟨out, ho.1, ho.2.1, ho.2.2.2.2 (GoError.errorString "error decrypting: integrity check failed")
      "integrity check failed" (by decide)⟩⟩

/-! ## The values carried by the key-type error (C10) -/

/-- C10: whenever header encryption type `e` and key type `t` fail the key-type check, the
error of `DecryptEncPart` is `key provided is not the correct type. Type needed: ` followed by
`e` in decimal, `, type provided: ` and `t` in decimal; and on an input with a valid header
`Unmarshal` returns an error whose message is its prefix followed by exactly that text. -/
theorem C10_mismatch_values {Cred : Type} (env : Env Cred) (c : CredentialsInfo Cred)
    (b : List Byte) (k : EncryptionKey) :
    (k.KeyType ≠ int32 c.EType →
      (CredentialsInfo.DecryptEncPart env c k).err = some (GoError.errorString
        ("key provided is not the correct type. Type needed: " ++ toString c.EType ++
          ", type provided: " ++ toString k.KeyType))) ∧
    (8 ≤ b.length → versionField b = 0 → k.KeyType ≠ int32 (etypeField b) →
      ∃ out, CredentialsInfo.Unmarshal env c b k = some out ∧
        out.err = some (GoError.errorString ("error decrypting PAC Credentials Data: " ++
          ("key provided is not the correct type. Type needed: " ++ toString (etypeField b) ++
            ", type provided: " ++ toString k.KeyType)))) := by
  constructor
  · intro hk
    simp [CredentialsInfo.DecryptEncPart, hk, fmtDu, fmtDi]
  · intro hlen hv hk
    refine ⟨_, Unmarshal_valid_header env c b k hlen hv, ?_⟩
    simp [CredentialsInfo.DecryptEncPart, hk, wrapDecrypt, fmtDu, fmtDi, GoError.Error]

/-- Witness for C10: header `00 00 00 00 12 00 00 00` and a key of type 23: the error names
18 as the type needed and 23 as the type provided. -/
theorem C10_mismatch_values_witness :
    (CredentialsInfo.DecryptEncPart echoEnv
        { Version := 0, EType := 18, PACCredentialDataEncrypted := [], PACCredentialData := ⟨0, []⟩ }
        ⟨23, []⟩).err =
      some (GoError.errorString
        "key provided is not the correct type. Type needed: 18, type provided: 23") ∧
    ∃ out, CredentialsInfo.Unmarshal echoEnv sampleInfo [0, 0, 0, 0, 0x12, 0, 0, 0] ⟨23, []⟩ =
        some out ∧
      out.err = some (GoError.errorString
        "error decrypting PAC Credentials Data: key provided is not the correct type. Type needed: 18, type provided: 23") :=
  ⟨(C10_mismatch_values echoEnv
      { Version := 0, EType := 18, PACCredentialDataEncrypted := [], PACCredentialData := ⟨0, []⟩ }
      [] ⟨23, []⟩).1 (by decide),
    (C10_mismatch_values echoEnv sampleInfo [0, 0, 0, 0, 0x12, 0, 0, 0] ⟨23, []⟩).2
      (by decide) (by decide) (by decide)⟩

/-! ## The round trip (C7) -/

theorem LittleEndianUint32_PutUint32 (v : Nat) :
    Uint32OfBytes (PutUint32 v) = some (v % 2 ^ 32) := by
  simp only [PutUint32, Uint32OfBytes, LittleEndianUint32_eq, Option.some.injEq]
  omega

theorem int32_uint32 (t : Int) (h1 : -2 ^ 31 ≤ t) (h2 : t < 2 ^ 31) : int32 (uint32 t) = t := by
  unfold int32 uint32
  split <;> omega

theorem payloadRead_append (q l : List Byte) (hq : q.length = 4088) :
    payloadRead (q ++ l) = q ++ List.replicate l.length 0 := by
  have h : List.take 4088 (q ++ l) = q := List.take_left' hq
  have h2 : (q ++ l).length - 4088 = l.length := by
    rw [List.length_append, hq, Nat.add_sub_cancel_left]
  unfold payloadRead
  rw [h, h2]

theorem Unmarshal_roundTripInput {Cred : Type} (env : Env Cred) (c : CredentialsInfo Cred)
    (k : EncryptionKey) (ct : List Byte) :
    CredentialsInfo.Unmarshal env c (roundTripInput k.KeyType ct) k =
      some (wrapDecrypt (CredentialsInfo.DecryptEncPart env
        { c with Version := 0, EType := uint32 k.KeyType % 2 ^ 32,
                 PACCredentialDataEncrypted := payloadRead ct } k)) := by
  have h0 := LittleEndianUint32_PutUint32 0
  have ht := LittleEndianUint32_PutUint32 (uint32 k.KeyType)
  simp only [PutUint32, Uint32OfBytes, Option.some.injEq] at h0 ht
  simp only [roundTripInput, PutUint32, List.cons_append, List.nil_append]
  rw [Unmarshal_header env c k _ _ _ _ _ _ _ _ ct h0, ht]

theorem int32_uint32_mod (t : Int) (h1 : -2 ^ 31 ≤ t) (h2 : t < 2 ^ 31) :
    int32 (uint32 t % 2 ^ 32) = t := by
  unfold int32 uint32
  split <;> omega

/-- The round trip holds for every ciphertext of at most 4088 bytes: for every key `k` (with
an `int32` key type), every `CredentialData` `d`, every `encrypt` and `encode` that the
external routines undo at `d` and `k` with key usage 16, `Unmarshal` applied to the header
(version 0, encryption type the key type) followed by `encrypt(encode(d), k, 16)` returns no
error and leaves `PACCredentialData` equal to `d`. -/
theorem roundtrip_of_ciphertext_le {Cred : Type} (env : Env Cred)
    (encrypt : List Byte → EncryptionKey → Nat → List Byte)
    (encode : CredentialData Cred → List Byte) (c : CredentialsInfo Cred) (k : EncryptionKey)
    (d : CredentialData Cred) (ht1 : -2 ^ 31 ≤ k.KeyType) (ht2 : k.KeyType < 2 ^ 31)
    (hdec : env.DecryptMessage (encrypt (encode d) k 16) k 16 = (encode d, none))
    (hdecode : env.Decode (encode d) c.PACCredentialData = (d, none))
    (hlen : (encrypt (encode d) k 16).length ≤ 4088) :
    ∃ out, CredentialsInfo.Unmarshal env c
        (roundTripInput k.KeyType (encrypt (encode d) k 16)) k = some out ∧
      out.err = none ∧ out.c.PACCredentialData = d := by
  refine ⟨_, Unmarshal_roundTripInput env c k _, ?_⟩
  rw [DecryptEncPart_of_guard env _ k (int32_uint32_mod k.KeyType ht1 ht2).symm]
  simp [KERB_NON_KERB_SALT, payloadRead_of_le _ hlen, hdec, CredentialData.Unmarshal,
    hdecode, wrapDecrypt]

/-- The example of the specification: header `00 00 00 00 12 00 00 00`, a key of type 18, a
ciphertext that decrypts to a plaintext decoding to count 0: `Unmarshal` returns no error,
`CredentialCount` is 0 and `Credentials` is empty. -/
theorem roundtrip_zero_count :
    roundTripInput 18 [5, 6] = [0, 0, 0, 0, 0x12, 0, 0, 0, 5, 6] ∧
    ∃ out, CredentialsInfo.Unmarshal
        { DecryptMessage := fun _ _ _ => ([0, 0, 0, 0], none)
          Decode := fun _ _ => (⟨0, []⟩, none) }
        sampleInfo (roundTripInput 18 [5, 6]) ⟨18, []⟩ = some out ∧
      out.err = none ∧ out.c.PACCredentialData.CredentialCount = 0 ∧
      out.c.PACCredentialData.Credentials = [] := by
  refine ⟨by decide, ?_⟩
  obtain ⟨out, h1, h2, h3⟩ := roundtrip_of_ciphertext_le
    { DecryptMessage := fun _ _ _ => ([0, 0, 0, 0], none)
      Decode := fun _ _ => (⟨0, []⟩, none) }
    (fun _ _ _ => [5, 6]) (fun _ => [0, 0, 0, 0]) sampleInfo ⟨18, []⟩ ⟨0, []⟩
    (by decide) (by decide) rfl rfl (by decide)
  exact ⟨out, h1, h2, by rw [h3], by rw [h3]⟩

theorem padEnv_DecryptMessage_append (q l : List Byte) (k : EncryptionKey) (u : Nat)
    (hq : q.length = 4088) :
    padEnv.DecryptMessage (q ++ l) k u =
      if l.head? = some 1 then (l.tail, none)
      else ([], some (GoError.errorString "integrity check failed")) := by
  have h : List.drop 4088 (q ++ l) = l := List.drop_left' hq
  simp only [padEnv, h]

/-- C7 at a ciphertext of 4091 bytes. The toy cipher `padEncrypt` and encoding `unitEncode`
are undone by the routines of `padEnv` on every plaintext and every well-formed
`CredentialData`, yet `Unmarshal` applied to the header (version 0, type 18) followed by
`padEncrypt (unitEncode d)` for `d` of count 2 fails: the decryption routine is handed 4088
bytes of the ciphertext followed by zeros, and rejects them; `PACCredentialData` is not `d`. -/
theorem C7_roundtrip_lost :
    (∀ (p : List Byte) (k : EncryptionKey),
      padEnv.DecryptMessage (padEncrypt p k 16) k 16 = (p, none)) ∧
    (∀ (d c : CredentialData Unit), d.Credentials.length = d.CredentialCount →
      padEnv.Decode (unitEncode d) c = (d, none)) ∧
    (padEncrypt (unitEncode ⟨2, [(), ()]⟩) ⟨18, []⟩ 16).length = 4091 ∧
    ∃ out, CredentialsInfo.Unmarshal padEnv sampleInfo
        (roundTripInput 18 (padEncrypt (unitEncode ⟨2, [(), ()]⟩) ⟨18, []⟩ 16)) ⟨18, []⟩ =
        some out ∧
      out.err = some (GoError.errorString
        "error decrypting PAC Credentials Data: integrity check failed") ∧
      out.c.PACCredentialData ≠ ⟨2, [(), ()]⟩ := by
  have hq : (List.replicate 4088 (0 : Byte)).length = 4088 := List.length_replicate _ _
  refine ⟨?_, ?_, ?_, ?_⟩
  · intro p k
    rw [padEncrypt, padEnv_DecryptMessage_append _ _ k 16 hq]
    rfl
  · intro d c hd
    cases d with
    | mk n l =>
      simp only [padEnv, unitEncode, List.length_replicate] at hd ⊢
      subst hd
      congr 2
      exact (List.eq_replicate_iff.mpr ⟨rfl, fun _ _ => rfl⟩).symm
  · simp only [padEncrypt, unitEncode, List.length_append, List.length_replicate,
      List.length_cons]
  · refine ⟨_, Unmarshal_roundTripInput padEnv sampleInfo ⟨18, []⟩ _, ?_⟩
    have hk : (18 : Int) = int32 (uint32 18 % 2 ^ 32) := by decide
    rw [DecryptEncPart_of_guard padEnv _ _ hk]
    simp only [KERB_NON_KERB_SALT, padEncrypt, unitEncode]
    generalize List.replicate 4088 (0 : Byte) = q at hq
    simp only [payloadRead_append _ _ hq, padEnv_DecryptMessage_append _ _ _ _ hq,
      List.length_cons, List.replicate_succ, List.head?_cons]
    simp [wrapDecrypt, sampleInfo, GoError.Error]

/-! ## The receiver after a failed call (C11) -/

theorem Unmarshal_short_state {Cred : Type} (env : Env Cred) (c : CredentialsInfo Cred)
    (b : List Byte) (k : EncryptionKey) (hlen : b.length < 8) :
    ∃ e, CredentialsInfo.Unmarshal env c b k =
      some { c := if 4 ≤ b.length then
                    (if versionField b = 0 then { c with Version := 0, EType := 0 }
                     else { c with Version := versionField b })
                  else { c with Version := 0 }
             err := some e
             calls := [] } := by
  by_cases h4 : 4 ≤ b.length
  · by_cases hv : versionField b = 0
    · rcases b with _ | ⟨b0, _ | ⟨b1, _ | ⟨b2, _ | ⟨b3, _ | ⟨b4, _ | ⟨b5, _ | ⟨b6, _ | ⟨b7, p⟩⟩⟩⟩⟩⟩⟩⟩
      all_goals first
        | (simp at h4; done)
        | (simp at hlen; omega)
        | skip
      all_goals
        simp only [versionField, byteAt, List.getD_cons_zero, List.getD_cons_succ] at hv
        simp only [CredentialsInfo.Unmarshal, Uint32_first, hv]
        simp [versionField, byteAt, hv,
          Reader.Uint32, Reader.ReadBytes, BufioReader.Read, BytesReader.Read, SizeUint32,
          defaultBufSize, fmtV, GoError.Error]
    · refine ⟨versionError, ?_⟩
      rw [Unmarshal_bad_version env c b k h4 hv]
      simp [h4, hv]
  · rcases b with _ | ⟨b0, _ | ⟨b1, _ | ⟨b2, _ | ⟨b3, rest⟩⟩⟩⟩
    all_goals first
      | (simp at h4; done)
      | skip
    all_goals
      simp [CredentialsInfo.Unmarshal, Reader.Uint32, Reader.ReadBytes, BufioReader.Read,
        BytesReader.Read, SizeUint32, defaultBufSize, fmtV, GoError.Error, Reader.NewReader,
        BufioReader.NewReader, BytesReader.NewReader]

/-- C11, as stated, fails: with header `00 00 00 00 12 00 00 00`, payload `05 06` and a key of
type 23, `Unmarshal` returns the key-type error and leaves `Version`, `EType` and
`PACCredentialDataEncrypted` changed (0, 18, `05 06` where the receiver held 7, 7, `09`); and
with a key of type 18 and an inner decoder that fails after writing to its target,
`Unmarshal` returns an error and leaves `PACCredentialData` changed too. -/
theorem C11_counterexample :
    CredentialsInfo.Unmarshal echoEnv sampleInfo [0, 0, 0, 0, 18, 0, 0, 0, 5, 6] ⟨23, []⟩ =
      some { c := { Version := 0, EType := 18, PACCredentialDataEncrypted := [5, 6],
                    PACCredentialData := ⟨3, [()]⟩ }
             err := some (GoError.errorString
               "error decrypting PAC Credentials Data: key provided is not the correct type. Type needed: 18, type provided: 23")
             calls := [] } ∧
    sampleInfo.Version = 7 ∧ sampleInfo.EType = 7 ∧
    sampleInfo.PACCredentialDataEncrypted = [9] ∧
    CredentialsInfo.Unmarshal partialDecodeEnv sampleInfo [0, 0, 0, 0, 18, 0, 0, 0, 5, 6] ⟨18, []⟩ =
      some { c := { Version := 0, EType := 18, PACCredentialDataEncrypted := [5, 6],
                    PACCredentialData := ⟨2, []⟩ }
             err := some (GoError.errorString
               "error decrypting PAC Credentials Data: error unmarshaling KerbValidationInfo: unexpected EOF")
             calls := [Call.DecryptMessage [5, 6] ⟨18, []⟩ 16, Call.Decode [5, 6]] } ∧
    sampleInfo.PACCredentialData = ⟨3, [()]⟩ := by
  decide

/-- C11, amended: when `Unmarshal` returns an error the receiver is not restored; it holds
what the steps before the failure assigned. `PACCredentialData` keeps its prior value when
the inner decoder was not invoked (failure at a header read, the version check, the key-type
check or decryption), and is whatever the failing decoder left in it otherwise. For an input
shorter than 4 bytes only `Version` changed, to 0; with a nonzero version only `Version`
changed, to that value; with 4 to 7 bytes and version 0, `Version` and `EType` are 0; with a
valid header, `Version` is 0, `EType` is the header's encryption type and
`PACCredentialDataEncrypted` is the payload read. -/
theorem C11_state_after_error {Cred : Type} (env : Env Cred) (c : CredentialsInfo Cred)
    (b : List Byte) (k : EncryptionKey) (out : Outcome Cred)
    (h : CredentialsInfo.Unmarshal env c b k = some out) (herr : out.err ≠ none) :
    (out.calls.filter Call.isDecode = [] → out.c.PACCredentialData = c.PACCredentialData) ∧
    (b.length < 4 → out.c = { c with Version := 0 }) ∧
    (4 ≤ b.length → versionField b ≠ 0 → out.c = { c with Version := versionField b }) ∧
    (4 ≤ b.length → b.length < 8 → versionField b = 0 →
      out.c = { c with Version := 0, EType := 0 }) ∧
    (8 ≤ b.length → versionField b = 0 →
      out.c.Version = 0 ∧ out.c.EType = etypeField b ∧
      out.c.PACCredentialDataEncrypted = payloadRead (b.drop 8) ∧
      (k.KeyType ≠ int32 (etypeField b) ∨
          (env.DecryptMessage (payloadRead (b.drop 8)) k 16).2 ≠ none →
        out.c.PACCredentialData = c.PACCredentialData) ∧
      (k.KeyType = int32 (etypeField b) →
          (env.DecryptMessage (payloadRead (b.drop 8)) k 16).2 = none →
        (env.Decode (env.DecryptMessage (payloadRead (b.drop 8)) k 16).1
          c.PACCredentialData).2 ≠ none ∧
        out.c.PACCredentialData =
          (env.Decode (env.DecryptMessage (payloadRead (b.drop 8)) k 16).1
            c.PACCredentialData).1)) := by
  by_cases hlen : 8 ≤ b.length
  · by_cases hv : versionField b = 0
    · rw [Unmarshal_valid_header env c b k hlen hv] at h
      cases h
      refine ⟨?_, fun h4 => absurd hlen (by omega), fun _ hv1 => absurd hv hv1,
        fun _ h8 => absurd hlen (by omega), fun _ _ => ?_⟩
      · rw [wrapDecrypt_calls, wrapDecrypt_c]
        by_cases hk : k.KeyType = int32 (etypeField b)
        · rw [DecryptEncPart_of_guard env _ k hk]
          cases hd : (env.DecryptMessage (payloadRead (List.drop 8 b)) k KERB_NON_KERB_SALT).2 <;>
            simp [hd, Call.isDecode]
        · simp [CredentialsInfo.DecryptEncPart, hk]
      · rw [Ne, wrapDecrypt_err_eq_none] at herr
        rw [wrapDecrypt_c]
        refine ⟨(DecryptEncPart_frame env _ k).1, (DecryptEncPart_frame env _ k).2.1,
          (DecryptEncPart_frame env _ k).2.2, ?_, ?_⟩
        · rintro (hk | hd)
          · simp [CredentialsInfo.DecryptEncPart, hk]
          · by_cases hk : k.KeyType = int32 (etypeField b)
            · rw [DecryptEncPart_of_guard env _ k hk]
              simp only [KERB_NON_KERB_SALT]
              cases hd1 : (env.DecryptMessage (payloadRead (List.drop 8 b)) k 16).2 with
              | none => exact absurd hd1 hd
              | some e => rfl
            · simp [CredentialsInfo.DecryptEncPart, hk]
        · intro hk hd
          rw [DecryptEncPart_of_guard env _ k hk] at herr ⊢
          simp only [KERB_NON_KERB_SALT, hd, CredentialData.Unmarshal] at herr ⊢
          cases hdec : (env.Decode (env.DecryptMessage (payloadRead (List.drop 8 b)) k 16).1
              c.PACCredentialData).2 with
          | none => simp [hdec] at herr
          | some e => simp [hdec]
    · rw [Unmarshal_bad_version env c b k (by omega) hv] at h
      cases h
      exact ⟨fun _ => rfl, fun h4 => absurd hlen (by omega), fun _ _ => rfl,
        fun _ h8 => absurd hlen (by omega), fun _ hv0 => absurd hv0 hv⟩
  · obtain ⟨e, he⟩ := Unmarshal_short_state env c b k (by omega)
    rw [he] at h
    cases h
    refine ⟨fun _ => ?_, fun h4 => ?_, fun h4 hv => ?_, fun h4 _ hv => ?_,
      fun h8 => absurd h8 hlen⟩
    · simp only
      split
      · split <;> rfl
      · rfl
    · simp [Nat.not_le.mpr h4]
    · simp [h4, hv]
    · simp [h4, hv]

/-- Witness for C11 (amended): the key-type failure of the counterexample. -/
theorem C11_state_after_error_witness :
    ∃ out, CredentialsInfo.Unmarshal echoEnv sampleInfo [0, 0, 0, 0, 18, 0, 0, 0, 5, 6] ⟨23, []⟩ =
        some out ∧ out.err ≠ none ∧
      out.c.PACCredentialData = sampleInfo.PACCredentialData ∧
      out.c.Version = 0 ∧ out.c.EType = etypeField [0, 0, 0, 0, 18, 0, 0, 0, 5, 6] :=
  have h : CredentialsInfo.Unmarshal echoEnv sampleInfo [0, 0, 0, 0, 18, 0, 0, 0, 5, 6] ⟨23, []⟩ =
      some { c := { Version := 0, EType := 18, PACCredentialDataEncrypted := [5, 6],
                    PACCredentialData := ⟨3, [()]⟩ }
             err := some (GoError.errorString
               "error decrypting PAC Credentials Data: key provided is not the correct type. Type needed: 18, type provided: 23")
             calls := [] } := by decide
  have h2 := C11_state_after_error echoEnv sampleInfo [0, 0, 0, 0, 18, 0, 0, 0, 5, 6] ⟨23, []⟩ _ h
    (by decide)
  ⟨_, h, by decide, h2.1 (by decide), (h2.2.2.2.2 (by decide) (by decide)).1,
    (h2.2.2.2.2 (by decide) (by decide)).2.1⟩

/-! ## What `DecryptEncPart` changes (C12) -/

/-- C12: for every receiver state and key, if `DecryptEncPart` fails the key-type check or
the decryption routine returns an error, `PACCredentialData` is unchanged (and so is the whole
receiver, and the inner decoder is not invoked); and in every case, success or failure,
`DecryptEncPart` leaves `Version`, `EType` and `PACCredentialDataEncrypted` unchanged. -/
theorem C12_populated_after_decryption {Cred : Type} (env : Env Cred)
    (c : CredentialsInfo Cred) (k : EncryptionKey) :
    (k.KeyType ≠ int32 c.EType ∨
        (env.DecryptMessage c.PACCredentialDataEncrypted k 16).2 ≠ none →
      (CredentialsInfo.DecryptEncPart env c k).c.PACCredentialData = c.PACCredentialData ∧
      (CredentialsInfo.DecryptEncPart env c k).c = c ∧
      (CredentialsInfo.DecryptEncPart env c k).err ≠ none ∧
      (CredentialsInfo.DecryptEncPart env c k).calls.filter Call.isDecode = []) ∧
    (CredentialsInfo.DecryptEncPart env c k).c.Version = c.Version ∧
    (CredentialsInfo.DecryptEncPart env c k).c.EType = c.EType ∧
    (CredentialsInfo.DecryptEncPart env c k).c.PACCredentialDataEncrypted =
      c.PACCredentialDataEncrypted := by
  refine ⟨?_, DecryptEncPart_frame env c k⟩
  intro h
  by_cases hk : k.KeyType = int32 c.EType
  · rcases h with h | h
    · exact absurd hk h
    · rw [DecryptEncPart_of_guard env c k hk]
      simp only [KERB_NON_KERB_SALT]
      cases hd : (env.DecryptMessage c.PACCredentialDataEncrypted k 16).2 with
      | none => exact absurd hd h
      | some e => simp [Call.isDecode]
  · simp [CredentialsInfo.DecryptEncPart, hk]

/-- Witness for C12: a record of encryption type 18 and a key of type 23. -/
theorem C12_populated_after_decryption_witness :
    (CredentialsInfo.DecryptEncPart echoEnv
        { Version := 0, EType := 18, PACCredentialDataEncrypted := [5, 6],
          PACCredentialData := ⟨3, [()]⟩ } ⟨23, []⟩).c.PACCredentialData = ⟨3, [()]⟩ :=
  ((C12_populated_after_decryption echoEnv
      { Version := 0, EType := 18, PACCredentialDataEncrypted := [5, 6],
        PACCredentialData := ⟨3, [()]⟩ } ⟨23, []⟩).1 (Or.inl (by decide))).1

/-! ## The key-type guard modulo `2 ^ 32` (C15) -/

/-- C15: for every `EType` `e` (an unsigned 32-bit value) and key type `t`, the guard of
`DecryptEncPart` passes, that is the decryption routine is invoked, if and only if `t = e`
when `e < 2^31` and `t = e - 2^32` when `e ≥ 2^31`; when it does not pass, the key-type error
is returned and nothing is invoked. So for every `e ≥ 2^31` no non-negative key type passes. -/
theorem C15_guard_modulo {Cred : Type} (env : Env Cred) (c : CredentialsInfo Cred)
    (k : EncryptionKey) (he : c.EType < 2 ^ 32) :
    ((CredentialsInfo.DecryptEncPart env c k).calls.head? =
        some (Call.DecryptMessage c.PACCredentialDataEncrypted k 16) ↔
      (if c.EType < 2 ^ 31 then k.KeyType = (c.EType : Int)
       else k.KeyType = (c.EType : Int) - 2 ^ 32)) ∧
    (¬ (if c.EType < 2 ^ 31 then k.KeyType = (c.EType : Int)
        else k.KeyType = (c.EType : Int) - 2 ^ 32) →
      CredentialsInfo.DecryptEncPart env c k =
        { c := c, err := some (keyTypeError c.EType k.KeyType), calls := [] }) ∧
    (2 ^ 31 ≤ c.EType → 0 ≤ k.KeyType →
      (CredentialsInfo.DecryptEncPart env c k).calls = []) := by
  have hi : int32 c.EType =
      if c.EType < 2 ^ 31 then (c.EType : Int) else (c.EType : Int) - 2 ^ 32 := by
    unfold int32
    rw [Nat.mod_eq_of_lt he]
  have hiff : k.KeyType = int32 c.EType ↔
      (if c.EType < 2 ^ 31 then k.KeyType = (c.EType : Int)
       else k.KeyType = (c.EType : Int) - 2 ^ 32) := by
    rw [hi]
    split <;> rfl
  refine ⟨?_, ?_, ?_⟩
  · rw [← hiff]
    constructor
    · intro h
      by_contra hk
      simp [CredentialsInfo.DecryptEncPart, hk] at h
    · intro hk
      rw [DecryptEncPart_of_guard env c k hk]
      simp only [KERB_NON_KERB_SALT]
      cases (env.DecryptMessage c.PACCredentialDataEncrypted k 16).2 <;> rfl
  · rw [← hiff]
    intro hk
    simp [CredentialsInfo.DecryptEncPart, hk, keyTypeError]
  · intro h31 h0
    have hk : k.KeyType ≠ int32 c.EType := by
      rw [hi, if_neg (by omega)]
      omega
    simp [CredentialsInfo.DecryptEncPart, hk]

/-- Witness for C15: `EType` `0xFFFFFFFF` with key type `-1` passes the guard. -/
theorem C15_guard_modulo_witness :
    (CredentialsInfo.DecryptEncPart echoEnv
        { Version := 0, EType := 0xFFFFFFFF, PACCredentialDataEncrypted := [5, 6],
          PACCredentialData := ⟨3, [()]⟩ } ⟨-1, []⟩).calls.head? =
      some (Call.DecryptMessage [5, 6] ⟨-1, []⟩ 16) :=
  (C15_guard_modulo echoEnv
      { Version := 0, EType := 0xFFFFFFFF, PACCredentialDataEncrypted := [5, 6],
        PACCredentialData := ⟨3, [()]⟩ } ⟨-1, []⟩ (by decide)).1.mpr (by decide)

/-! ## The payload read is reached with a non-negative length (C13) -/

theorem ReadBytes_eq_none_iff (r : Reader) (n : Int) : r.ReadBytes n = none ↔ n < 0 := by
  unfold Reader.ReadBytes
  by_cases h : n < 0
  · simp [h]
  · simp only [h, if_false, iff_false]
    split <;> simp

theorem header_reads {b : List Byte} {r1 r2 : Reader} {v1 v2 : Nat}
    (h1 : (Reader.NewReader (BytesReader.NewReader b)).Uint32 = some (r1, v1, none))
    (h2 : r1.Uint32 = some (r2, v2, none)) :
    8 ≤ b.length ∧ v1 = versionField b ∧ v2 = etypeField b ∧
      r2 = ⟨⟨⟨b, min 4096 b.length⟩, (b.drop 8).take 4088, none⟩⟩ := by
  rcases b with _ | ⟨b0, _ | ⟨b1, _ | ⟨b2, _ | ⟨b3, rest⟩⟩⟩⟩
  case cons.cons.cons.cons =>
    rw [Uint32_first] at h1
    simp only [Option.some.injEq, Prod.mk.injEq] at h1
    obtain ⟨hr1, hv1, -⟩ := h1
    subst hr1
    rcases rest with _ | ⟨b4, _ | ⟨b5, _ | ⟨b6, _ | ⟨b7, p⟩⟩⟩⟩
    case cons.cons.cons.cons =>
      have ht : List.take 4092 (b4 :: b5 :: b6 :: b7 :: p) =
          b4 :: b5 :: b6 :: b7 :: p.take 4088 := by simp
      rw [ht, Uint32_second] at h2
      simp only [Option.some.injEq, Prod.mk.injEq] at h2
      obtain ⟨hr2, hv2, -⟩ := h2
      subst hr2
      refine ⟨by simp, ?_, ?_, ?_⟩
      · simp [← hv1, versionField, byteAt]
      · simp [← hv2, etypeField, byteAt]
      · simp
    all_goals
      simp [Reader.Uint32, Reader.ReadBytes, BufioReader.Read, BytesReader.Read, SizeUint32,
        defaultBufSize] at h2
  all_goals
    simp [Reader.Uint32, Reader.ReadBytes, BufioReader.Read, BytesReader.Read, SizeUint32,
      defaultBufSize, Reader.NewReader, BufioReader.NewReader, BytesReader.NewReader] at h1

theorem Unmarshal_total {Cred : Type} (env : Env Cred) (c : CredentialsInfo Cred)
    (b : List Byte) (k : EncryptionKey) :
    ∃ out, CredentialsInfo.Unmarshal env c b k = some out := by
  by_cases hlen : 8 ≤ b.length
  · by_cases hv : versionField b = 0
    · exact ⟨_, Unmarshal_valid_header env c b k hlen hv⟩
    · exact ⟨_, Unmarshal_bad_version env c b k (by omega) hv⟩
  · obtain ⟨e, he⟩ := Unmarshal_short_state env c b k (by omega)
    exact ⟨_, he⟩

/-- With external routines that always return, `Unmarshal` returns for every input and key
(an outcome with a nil or non-nil error); whenever both 32-bit header reads succeed the input
has at least 8 bytes, so the length `len(b) - 8` asked of the payload read is not negative and `ReadBytes` does not
panic on it; and for an input shorter than 8 bytes `Unmarshal` returns an error before the
payload read: the payload field is left as it was and nothing is invoked. -/
theorem payload_read_safe {Cred : Type} (env : Env Cred) (c : CredentialsInfo Cred)
    (b : List Byte) (k : EncryptionKey) :
    (∃ out, CredentialsInfo.Unmarshal env c b k = some out) ∧
    (∀ (r1 r2 : Reader) (v1 v2 : Nat),
      (Reader.NewReader (BytesReader.NewReader b)).Uint32 = some (r1, v1, none) →
      r1.Uint32 = some (r2, v2, none) →
      8 ≤ b.length ∧ 0 ≤ (b.length : Int) - 8 ∧ r2.ReadBytes ((b.length : Int) - 8) ≠ none) ∧
    (b.length < 8 →
      ∃ out, CredentialsInfo.Unmarshal env c b k = some out ∧ out.err ≠ none ∧
        out.calls = [] ∧ out.c.PACCredentialDataEncrypted = c.PACCredentialDataEncrypted) := by
  refine ⟨Unmarshal_total env c b k, ?_, ?_⟩
  · intro r1 r2 v1 v2 h1 h2
    have h8 := (header_reads h1 h2).1
    have hn : (0 : Int) ≤ (b.length : Int) - 8 := by omega
    refine ⟨h8, hn, ?_⟩
    intro h
    rw [ReadBytes_eq_none_iff] at h
    omega
  · intro hlen
    obtain ⟨e, he⟩ := Unmarshal_short_state env c b k hlen
    refine ⟨_, he, by simp, rfl, ?_⟩
    simp only
    split
    · split <;> rfl
    · rfl

theorem DecryptEncPartP_toPanicEnv {Cred : Type} (env : Env Cred) (c : CredentialsInfo Cred)
    (k : EncryptionKey) :
    CredentialsInfo.DecryptEncPartP env.toPanicEnv c k =
      some (CredentialsInfo.DecryptEncPart env c k) := by
  unfold CredentialsInfo.DecryptEncPartP CredentialsInfo.DecryptEncPart
  split
  · rfl
  · simp only [Env.toPanicEnv, CredentialData.UnmarshalP, CredentialData.Unmarshal]
    cases (env.DecryptMessage c.PACCredentialDataEncrypted k KERB_NON_KERB_SALT).2 with
    | some e => rfl
    | none =>
      simp only
      cases (env.Decode (env.DecryptMessage c.PACCredentialDataEncrypted k
        KERB_NON_KERB_SALT).1 c.PACCredentialData).2 <;> rfl

theorem UnmarshalP_header {Cred : Type} (penv : PanicEnv Cred) (c : CredentialsInfo Cred)
    (k : EncryptionKey) (b0 b1 b2 b3 b4 b5 b6 b7 : Byte) (payload : List Byte)
    (hv : LittleEndianUint32 b0 b1 b2 b3 = 0) :
    CredentialsInfo.UnmarshalP penv c (b0 :: b1 :: b2 :: b3 :: b4 :: b5 :: b6 :: b7 :: payload) k =
      (CredentialsInfo.DecryptEncPartP penv
        { c with Version := 0, EType := LittleEndianUint32 b4 b5 b6 b7,
                 PACCredentialDataEncrypted := payloadRead payload } k).map wrapDecrypt := by
  have h : List.take 4092 (b4 :: b5 :: b6 :: b7 :: payload) =
      b4 :: b5 :: b6 :: b7 :: payload.take 4088 := by simp
  have hl : (((b0 :: b1 :: b2 :: b3 :: b4 :: b5 :: b6 :: b7 :: payload).length : Nat) : Int) - 8
      = ((payload.length + 8 : Nat) : Int) - 8 := by
    simp only [List.length_cons]
  simp only [CredentialsInfo.UnmarshalP, Uint32_first, hv, h, Uint32_second, hl,
    ReadBytes_payload]
  simp only [Option.isSome_none, Bool.false_eq_true, if_false, ne_eq, not_true_eq_false]
  cases hd : CredentialsInfo.DecryptEncPartP penv
      { c with Version := 0, EType := LittleEndianUint32 b4 b5 b6 b7,
               PACCredentialDataEncrypted := payloadRead payload } k with
  | none => rfl
  | some out =>
    simp only [Option.map_some', wrapDecrypt, fmtV]
    cases out.err <;> rfl

theorem UnmarshalP_valid_header {Cred : Type} (penv : PanicEnv Cred) (c : CredentialsInfo Cred)
    (b : List Byte) (k : EncryptionKey) (hlen : 8 ≤ b.length) (hv : versionField b = 0) :
    CredentialsInfo.UnmarshalP penv c b k =
      (CredentialsInfo.DecryptEncPartP penv
        { c with Version := 0, EType := etypeField b,
                 PACCredentialDataEncrypted := payloadRead (b.drop 8) } k).map wrapDecrypt := by
  have hb := eq_cons_of_length_ge_eight b hlen
  have h := UnmarshalP_header penv c k (byteAt b 0) (byteAt b 1) (byteAt b 2) (byteAt b 3)
    (byteAt b 4) (byteAt b 5) (byteAt b 6) (byteAt b 7) (b.drop 8) hv
  rw [← hb] at h
  exact h

theorem UnmarshalP_of_invalid_header {Cred : Type} (penv : PanicEnv Cred) (env : Env Cred)
    (c : CredentialsInfo Cred) (b : List Byte) (k : EncryptionKey)
    (h : ¬ (8 ≤ b.length ∧ versionField b = 0)) :
    CredentialsInfo.UnmarshalP penv c b k = CredentialsInfo.Unmarshal env c b k := by
  by_cases h4 : 4 ≤ b.length
  · by_cases hv : versionField b = 0
    · have hlen : b.length < 8 := by
        by_contra h8
        exact h ⟨by omega, hv⟩
      rcases b with _ | ⟨b0, _ | ⟨b1, _ | ⟨b2, _ | ⟨b3, _ | ⟨b4, _ | ⟨b5, _ | ⟨b6, _ | ⟨b7, p⟩⟩⟩⟩⟩⟩⟩⟩
      all_goals first
        | (simp at h4; done)
        | (simp at hlen; omega)
        | skip
      all_goals
        simp only [versionField, byteAt, List.getD_cons_zero, List.getD_cons_succ] at hv
        simp only [CredentialsInfo.UnmarshalP, CredentialsInfo.Unmarshal, Uint32_first, hv]
        simp [Reader.Uint32, Reader.ReadBytes, BufioReader.Read, BytesReader.Read, SizeUint32,
          defaultBufSize, fmtV, GoError.Error]
    · rcases b with _ | ⟨b0, _ | ⟨b1, _ | ⟨b2, _ | ⟨b3, rest⟩⟩⟩⟩
      all_goals first
        | (simp at h4; done)
        | skip
      simp only [versionField, byteAt, List.getD_cons_zero, List.getD_cons_succ] at hv
      simp [CredentialsInfo.UnmarshalP, CredentialsInfo.Unmarshal, Uint32_first, hv]
  · rcases b with _ | ⟨b0, _ | ⟨b1, _ | ⟨b2, _ | ⟨b3, rest⟩⟩⟩⟩
    all_goals first
      | (simp at h4; done)
      | skip
    all_goals
      simp [CredentialsInfo.UnmarshalP, CredentialsInfo.Unmarshal, Reader.Uint32,
        Reader.ReadBytes, BufioReader.Read, BytesReader.Read, SizeUint32, defaultBufSize, fmtV,
        GoError.Error, Reader.NewReader, BufioReader.NewReader, BytesReader.NewReader]

theorem UnmarshalP_toPanicEnv {Cred : Type} (env : Env Cred) (c : CredentialsInfo Cred)
    (b : List Byte) (k : EncryptionKey) :
    CredentialsInfo.UnmarshalP env.toPanicEnv c b k = CredentialsInfo.Unmarshal env c b k := by
  by_cases h : 8 ≤ b.length ∧ versionField b = 0
  · rw [UnmarshalP_valid_header _ c b k h.1 h.2, Unmarshal_valid_header env c b k h.1 h.2,
      DecryptEncPartP_toPanicEnv]
    rfl
  · exact UnmarshalP_of_invalid_header _ env c b k h

theorem DecryptEncPartP_eq_none_iff {Cred : Type} (penv : PanicEnv Cred)
    (c : CredentialsInfo Cred) (k : EncryptionKey) :
    CredentialsInfo.DecryptEncPartP penv c k = none ↔
      k.KeyType = int32 c.EType ∧
      (penv.DecryptMessage c.PACCredentialDataEncrypted k 16 = none ∨
        ∃ pt, penv.DecryptMessage c.PACCredentialDataEncrypted k 16 = some (pt, none) ∧
          penv.Decode pt c.PACCredentialData = none) := by
  unfold CredentialsInfo.DecryptEncPartP
  by_cases hk : k.KeyType = int32 c.EType
  · simp only [hk, ne_eq, not_true_eq_false, if_false, KERB_NON_KERB_SALT, true_and]
    cases hd : penv.DecryptMessage c.PACCredentialDataEncrypted k 16 with
    | none => simp
    | some dm =>
      obtain ⟨pt, e⟩ := dm
      cases e with
      | some e => simp
      | none =>
        simp only [CredentialData.UnmarshalP]
        cases hdec : penv.Decode pt c.PACCredentialData with
        | none => simp [hdec]
        | some res =>
          cases hres : res.2 <;> simp [hdec, hres]
  · simp [hk]

/-- C13, as stated, fails: on the input `00 00 00 00 12 00 00 00 05 06` with a key of type 18
the header is valid and the key passes the key-type check, the decryption routine is invoked
on the 2-byte payload, panics, and so does `Unmarshal`: it returns neither nil nor an error. -/
theorem C13_counterexample :
    8 ≤ ([0, 0, 0, 0, 18, 0, 0, 0, 5, 6] : List Byte).length ∧
    versionField [0, 0, 0, 0, 18, 0, 0, 0, 5, 6] = 0 ∧
    (EncryptionKey.mk 18 []).KeyType = int32 (etypeField [0, 0, 0, 0, 18, 0, 0, 0, 5, 6]) ∧
    shortPanicEnv.DecryptMessage [5, 6] ⟨18, []⟩ 16 = none ∧
    CredentialsInfo.UnmarshalP shortPanicEnv sampleInfo [0, 0, 0, 0, 18, 0, 0, 0, 5, 6]
      ⟨18, []⟩ = none := by
  decide

/-- C13, amended: for every input and key, whenever both 32-bit header reads succeed the input
has at least 8 bytes, so the length `len(b) - 8` asked of the payload read is not negative
and the payload read does not panic; for an input shorter than 8 bytes `Unmarshal` returns an
error before the payload read, with the payload field left as it was and nothing invoked.
`Unmarshal` panics exactly when the header is valid, the key passes the key-type check, and
either the decryption routine panics or it returns plaintext without error and the inner
decoder panics on it; in particular, with external routines that never panic `Unmarshal`
returns for every input and key. -/
theorem C13_payload_length_safe {Cred : Type} (penv : PanicEnv Cred)
    (c : CredentialsInfo Cred) (b : List Byte) (k : EncryptionKey) :
    (∀ (r1 r2 : Reader) (v1 v2 : Nat),
      (Reader.NewReader (BytesReader.NewReader b)).Uint32 = some (r1, v1, none) →
      r1.Uint32 = some (r2, v2, none) →
      8 ≤ b.length ∧ 0 ≤ (b.length : Int) - 8 ∧ r2.ReadBytes ((b.length : Int) - 8) ≠ none) ∧
    (b.length < 8 →
      ∃ out, CredentialsInfo.UnmarshalP penv c b k = some out ∧ out.err ≠ none ∧
        out.calls = [] ∧ out.c.PACCredentialDataEncrypted = c.PACCredentialDataEncrypted) ∧
    (CredentialsInfo.UnmarshalP penv c b k = none ↔
      8 ≤ b.length ∧ versionField b = 0 ∧ k.KeyType = int32 (etypeField b) ∧
      (penv.DecryptMessage (payloadRead (b.drop 8)) k 16 = none ∨
        ∃ pt, penv.DecryptMessage (payloadRead (b.drop 8)) k 16 = some (pt, none) ∧
          penv.Decode pt c.PACCredentialData = none)) ∧
    (∀ env : Env Cred,
      CredentialsInfo.UnmarshalP env.toPanicEnv c b k = CredentialsInfo.Unmarshal env c b k ∧
      ∃ out, CredentialsInfo.Unmarshal env c b k = some out) := by
  refine ⟨?_, ?_, ?_, fun env => ⟨UnmarshalP_toPanicEnv env c b k, Unmarshal_total env c b k⟩⟩
  · intro r1 r2 v1 v2 h1 h2
    have h8 := (header_reads h1 h2).1
    have hn : (0 : Int) ≤ (b.length : Int) - 8 := by omega
    refine ⟨h8, hn, ?_⟩
    intro h
    rw [ReadBytes_eq_none_iff] at h
    omega
  · intro hlen
    rw [UnmarshalP_of_invalid_header penv (⟨fun ct _ _ => (ct, none), fun _ d => (d, none)⟩ : Env Cred) c b k (fun h => absurd h.1 (by omega))]
    exact (payload_read_safe (⟨fun ct _ _ => (ct, none), fun _ d => (d, none)⟩ : Env Cred) c b k).2.2 hlen
  · by_cases h : 8 ≤ b.length ∧ versionField b = 0
    · rw [UnmarshalP_valid_header penv c b k h.1 h.2, Option.map_eq_none',
        DecryptEncPartP_eq_none_iff]
      simp only [h.1, h.2, true_and]
    · rw [UnmarshalP_of_invalid_header penv (⟨fun ct _ _ => (ct, none), fun _ d => (d, none)⟩ : Env Cred) c b k h]
      obtain ⟨out, hout⟩ := Unmarshal_total (⟨fun ct _ _ => (ct, none), fun _ d => (d, none)⟩ : Env Cred) c b k
      rw [hout]
      constructor
      · intro h0
        cases h0
      · intro h1
        exact absurd ⟨h1.1, h1.2.1⟩ h

/-- Witness for C13 (amended): a 5-byte input, with a decryption routine that would panic on
a short ciphertext. -/
theorem C13_payload_length_safe_witness :
    ([0, 0, 0, 0, 18] : List Byte).length < 8 ∧
    ∃ out, CredentialsInfo.UnmarshalP shortPanicEnv sampleInfo [0, 0, 0, 0, 18] ⟨18, []⟩ =
        some out ∧
      out.err ≠ none ∧ out.calls = [] ∧
      out.c.PACCredentialDataEncrypted = sampleInfo.PACCredentialDataEncrypted :=
  ⟨by decide,
    (C13_payload_length_safe shortPanicEnv sampleInfo [0, 0, 0, 0, 18] ⟨18, []⟩).2.1
      (by decide)⟩

/-! ## The exact success condition (C14) -/

theorem versionField_eq_zero_iff (b : List Byte) :
    versionField b = 0 ↔
      byteAt b 0 = 0 ∧ byteAt b 1 = 0 ∧ byteAt b 2 = 0 ∧ byteAt b 3 = 0 := by
  rw [versionField_eq]
  constructor
  · intro h
    refine ⟨Fin.ext ?_, Fin.ext ?_, Fin.ext ?_, Fin.ext ?_⟩ <;> simp only [Fin.val_zero] <;> omega
  · rintro ⟨h0, h1, h2, h3⟩
    rw [h0, h1, h2, h3]
    rfl

theorem DecryptEncPart_err_eq_none_iff {Cred : Type} (env : Env Cred)
    (c : CredentialsInfo Cred) (k : EncryptionKey) :
    (CredentialsInfo.DecryptEncPart env c k).err = none ↔
      k.KeyType = int32 c.EType ∧
      (env.DecryptMessage c.PACCredentialDataEncrypted k 16).2 = none ∧
      (env.Decode (env.DecryptMessage c.PACCredentialDataEncrypted k 16).1
        c.PACCredentialData).2 = none := by
  by_cases hk : k.KeyType = int32 c.EType
  · rw [DecryptEncPart_of_guard env c k hk]
    simp only [KERB_NON_KERB_SALT]
    cases hd : (env.DecryptMessage c.PACCredentialDataEncrypted k 16).2 with
    | some e => simp [hk]
    | none =>
      cases hdec : (env.Decode (env.DecryptMessage c.PACCredentialDataEncrypted k 16).1
          c.PACCredentialData).2 <;>
        simp [hk, hdec, CredentialData.Unmarshal]
  · simp [CredentialsInfo.DecryptEncPart, hk]

theorem payload_read_result {b : List Byte} {r1 r2 : Reader} {v1 v2 : Nat}
    (h1 : (Reader.NewReader (BytesReader.NewReader b)).Uint32 = some (r1, v1, none))
    (h2 : r1.Uint32 = some (r2, v2, none)) :
    r2.ReadBytes ((b.length : Int) - 8) =
      some (⟨⟨⟨b, min 4096 b.length⟩, [], none⟩⟩, payloadRead (b.drop 8),
        if b.length ≤ 4096 then none
        else some (GoError.errorString "error reading bytes from stream: <nil>")) := by
  obtain ⟨h8, -, -, hr2⟩ := header_reads h1 h2
  have hl : (b.length : Int) - 8 = (((b.drop 8).length + 8 : Nat) : Int) - 8 := by
    rw [List.length_drop]
    omega
  rw [hr2, hl, ReadBytes_payload, List.length_drop]
  by_cases h : b.length ≤ 4096
  · rw [if_pos h, if_pos (by omega)]
  · rw [if_neg h, if_neg (by omega)]

/-- C14: for every input `b` and key `k`, `Unmarshal` returns no error if and only if `b` has
at least 8 bytes, bytes `[0,4)` are all zero, `k.KeyType` is `int32` of the little-endian
value of bytes `[4,8)`, the decryption routine succeeds on the payload field, `k` and key
usage 16, and the inner decoder succeeds on the resulting plaintext. The error of the payload
read plays no part: whenever both header reads succeed, the payload read returns the payload
field together with an error that is non-nil exactly for inputs longer than 4096 bytes, and
with version 0 the outcome of `Unmarshal` is that of `DecryptEncPart` on the record read,
wrapped, whatever that error is. -/
theorem C14_success_iff {Cred : Type} (env : Env Cred) (c : CredentialsInfo Cred)
    (b : List Byte) (k : EncryptionKey) :
    ((∃ out, CredentialsInfo.Unmarshal env c b k = some out ∧ out.err = none) ↔
      8 ≤ b.length ∧
      (byteAt b 0 = 0 ∧ byteAt b 1 = 0 ∧ byteAt b 2 = 0 ∧ byteAt b 3 = 0) ∧
      k.KeyType = int32 (etypeField b) ∧
      (env.DecryptMessage (payloadRead (b.drop 8)) k 16).2 = none ∧
      (env.Decode (env.DecryptMessage (payloadRead (b.drop 8)) k 16).1
        c.PACCredentialData).2 = none) ∧
    (∀ (r1 r2 : Reader) (v1 v2 : Nat),
      (Reader.NewReader (BytesReader.NewReader b)).Uint32 = some (r1, v1, none) →
      r1.Uint32 = some (r2, v2, none) →
      (∃ r3, r2.ReadBytes ((b.length : Int) - 8) =
        some (r3, payloadRead (b.drop 8),
          if b.length ≤ 4096 then none
          else some (GoError.errorString "error reading bytes from stream: <nil>"))) ∧
      (v1 = 0 →
        CredentialsInfo.Unmarshal env c b k =
          some (wrapDecrypt (CredentialsInfo.DecryptEncPart env
            { c with Version := 0, EType := v2,
                     PACCredentialDataEncrypted := payloadRead (b.drop 8) } k)))) := by
  constructor
  · rw [← versionField_eq_zero_iff]
    constructor
    · rintro ⟨out, hout, herr⟩
      by_cases hlen : 8 ≤ b.length
      · by_cases hv : versionField b = 0
        · rw [Unmarshal_valid_header env c b k hlen hv] at hout
          cases hout
          rw [wrapDecrypt_err_eq_none, DecryptEncPart_err_eq_none_iff] at herr
          exact ⟨hlen, hv, herr⟩
        · rw [Unmarshal_bad_version env c b k (by omega) hv] at hout
          cases hout
          simp at herr
      · obtain ⟨e, he⟩ := Unmarshal_short_state env c b k (by omega)
        rw [he] at hout
        cases hout
        simp at herr
    · rintro ⟨hlen, hv, hrest⟩
      refine ⟨_, Unmarshal_valid_header env c b k hlen hv, ?_⟩
      rw [wrapDecrypt_err_eq_none, DecryptEncPart_err_eq_none_iff]
      exact hrest
  · intro r1 r2 v1 v2 h1 h2
    refine ⟨⟨_, payload_read_result h1 h2⟩, ?_⟩
    intro hv1
    obtain ⟨h8, hv, he, -⟩ := header_reads h1 h2
    rw [he]
    exact Unmarshal_valid_header env c b k h8 (by rw [← hv, hv1])

/-- Witness for C14: version 0, encryption type 18, a key of type 18 and external routines
that succeed. -/
theorem C14_success_iff_witness :
    ∃ out, CredentialsInfo.Unmarshal echoEnv sampleInfo [0, 0, 0, 0, 18, 0, 0, 0, 5, 6] ⟨18, []⟩ =
      some out ∧ out.err = none :=
  (C14_success_iff echoEnv sampleInfo [0, 0, 0, 0, 18, 0, 0, 0, 5, 6] ⟨18, []⟩).1.mpr
    (by decide)

end pac
